import Mathlib

/-!
# Metadata resolution over a jar snapshot (`core/jarfile.go`)

A shallow embedding of the accessors of `jarFile` and of the generic
first-match evaluator `tryFuncs.try`, followed by the properties proved
about them.

Conventions of the embedding

* A Go `string` is a Lean `String` (a sequence of Unicode code points; the
  Go programs considered only handle valid UTF-8 text).
* A Go `map[string]string` is a `List (String × String)`: the entries of
  the map in the order in which a `range` loop visits them.  Go leaves
  that order unspecified, so statements quantify over every such list.
  Key lookup `m[k]` is `List.lookup`.
* A Go result pair `(T, error)` is `T × Option GoError`; `none` is `nil`.
* A probe `func(*jarFile) (T, bool)` is a function into `T × Bool`.
-/

namespace JarFile

/-! ## Go standard-library functions used by the accessors -/

/-- Go `unicode.IsSpace`: the white-space code points. -/
def isSpace (c : Char) : Bool :=
  let n := c.toNat
  n == 0x09 || n == 0x0A || n == 0x0B || n == 0x0C || n == 0x0D || n == 0x20 ||
  n == 0x85 || n == 0xA0 || n == 0x1680 || (0x2000 ≤ n && n ≤ 0x200A) ||
  n == 0x2028 || n == 0x2029 || n == 0x202F || n == 0x205F || n == 0x3000

/-- Remove the longest suffix of white space. -/
def trimRight (l : List Char) : List Char :=
  (l.reverse.dropWhile isSpace).reverse

/-- Go `strings.TrimSpace`: leading and trailing white space removed. -/
def TrimSpace (s : String) : String :=
  ⟨trimRight (s.data.dropWhile isSpace)⟩

/-- Go `len(s)`: the number of bytes of the UTF-8 encoding of `s`. -/
def len (s : String) : Nat :=
  (s.data.map Char.utf8Size).sum

/-- Whether `sub` occurs in `l` as a contiguous block. -/
def containsL (sub : List Char) : List Char → Bool
  | [] => sub.isEmpty
  | c :: cs => sub.isPrefixOf (c :: cs) || containsL sub cs

/-- Go `strings.Contains(s, substr)`. -/
def Contains (s substr : String) : Bool :=
  containsL substr.data s.data

/-- Go `strings.TrimSuffix(s, suffix)`: `s` without the trailing `suffix`,
or `s` itself when it does not end in `suffix`. -/
def TrimSuffix (s suffix : String) : String :=
  if suffix.data.isSuffixOf s.data then
    ⟨s.data.take (s.data.length - suffix.data.length)⟩
  else s

/-- Go `strings.Join(elems, sep)`. -/
def Join (elems : List String) (sep : String) : String :=
  ⟨List.intercalate sep.data (elems.map String.data)⟩

/-- The path separator of `path/filepath` on the platforms the tool runs on. -/
def isPathSeparator (c : Char) : Bool := c == '/'

/-- The loop of `filepath.Ext`, over the reversed path: `acc` holds the
characters already passed, in path order. -/
def extLoop : List Char → List Char → List Char
  | [], _ => []
  | c :: rest, acc =>
    if isPathSeparator c then []
    else if c == '.' then c :: acc
    else extLoop rest (c :: acc)

/-- Go `filepath.Ext(path)`: the suffix beginning at the final dot in the
final element of `path`; empty if there is no dot. -/
def Ext (path : String) : String :=
  ⟨extLoop path.data.reverse []⟩

/-- Go `filepath.Base(path)`: the last element of `path`, trailing
separators removed first; `"."` for the empty path and `"/"` for a path of
separators only. -/
def Base (path : String) : String :=
  if path.data = [] then "."
  else
    let stripped := (path.data.reverse.dropWhile isPathSeparator)
    let last := (stripped.takeWhile (fun c => !isPathSeparator c)).reverse
    if last = [] then "/" else ⟨last⟩

/-- The value of a decimal digit, if `c` is one. -/
def digitVal (c : Char) : Option Nat :=
  if '0' ≤ c ∧ c ≤ '9' then some (c.toNat - '0'.toNat) else none

/-- Read a non-empty run of decimal digits as a natural number. -/
def parseDigits : List Char → Option Nat → Option Nat
  | [], acc => acc
  | c :: cs, acc =>
    match digitVal c with
    | none => none
    | some d => parseDigits cs (some (acc.getD 0 * 10 + d))

/-- Go `strconv.Atoi` on a 64-bit platform: an optional sign followed by
decimal digits, within the range of `int`; `none` stands for a non-nil
error. -/
def Atoi (s : String) : Option Int :=
  let signed : Bool × List Char :=
    match s.data with
    | '+' :: cs => (false, cs)
    | '-' :: cs => (true, cs)
    | cs => (false, cs)
  match parseDigits signed.2 none with
  | none => none
  | some n =>
    let v : Int := if signed.1 then -(n : Int) else (n : Int)
    if -(2 ^ 63 : Int) ≤ v ∧ v ≤ 2 ^ 63 - 1 then some v else none

/-! ## The first-match evaluator -/

/-- The method `tryFuncs[T].try`: run the probes in order and return the
value of the first one that reports success; `zero` is Go's zero value of
`T`. -/
def tryFuncs.try {J T : Type} (zero : T) : List (J → T × Bool) → J → T × Bool
  | [], _ => (zero, false)
  | f :: ts, file =>
    if (f file).2 then ((f file).1, true) else tryFuncs.try zero ts file

/-! ## Data model -/

/-- The severities of `v1alpha1` attached to a `DiscoveryError`. -/
inductive Severity where
  | Warning
  | Error
  deriving DecidableEq, Repr

/-- A Go `error`: either the package's `DiscoveryError` or a foreign error
passed through unchanged. -/
inductive GoError where
  | DiscoveryError (message : String) (severity : Severity)
  | foreign (message : String)
  deriving DecidableEq, Repr

/-- Modelled from the spec: the declaration of `AppType` and of its values
is not among the source files; the glossary names the two packaging
variants the core distinguishes.  `zero` is the value of `var zero AppType`. -/
inductive AppType where
  | zero
  | SpringBootFatJar
  | ExecutableJar
  deriving DecidableEq, Repr

/-- The manifest key names and launcher class names that `jarfile.go` uses
but that are declared in another file of the package. -/
structure Consts where
  MainClassField : String
  JarLauncherClassName : String
  PropertiesLauncherClassName : String
  AppNameField : String
  JdkVersionField : String
  JdkVersionFieldFor1x : String
  SpringBootVersionField : String
  VersionField : String

def PomFileName : String := "pom.xml"
def SpringBootStarterGroupId : String := "org.springframework.boot"
def SpringBootStarterArtifactId : String := "spring-boot-starter-parent"
def SpringBootJarFilePrefix : String := "spring-boot"
def JavaVersionPropertyName : String := "java.version"
def CompilerTargetPropertyName : String := "maven.compiler.target"
def CompilerReleasePropertyName : String := "maven.compiler.target"
def ApplicationNameKey : String := "spring.application.name"
def ApplicationPortKey : String := "server.port"

/-- The `Parent` part of `mvnparser.MavenProject`. -/
structure MavenParent where
  GroupId : String
  ArtifactId : String
  Version : String
  deriving DecidableEq, Repr

/-- The fields of `mvnparser.MavenProject` that the accessors read. -/
structure MavenProject where
  Parent : MavenParent
  Name : String
  Version : String
  Properties : List (String × String)
  deriving DecidableEq, Repr

/-- The struct `jarFile`.  `mvnProject` is a pointer in Go; `none` is its
`nil`. -/
structure jarFile where
  checksum : String
  remoteLocation : String
  manifests : List (String × String)
  dependencies : List String
  applicationConfigurations : List (String × String)
  loggingConfigs : List (String × String)
  certificates : List String
  staticFiles : List String
  mvnProject : Option MavenProject
  lastModifiedTime : Nat
  size : Int
  deriving DecidableEq, Repr

/-! ## `GetAppType` -/

/-- The probe `tryManifest` of `GetAppType`.  The `switch` has an empty
case for `JarLauncherClassName`; a Go case does not fall through into the
next one, so control leaves the `switch` and reaches `return zero, false`. -/
def GetAppType.tryManifest (c : Consts) (j : jarFile) : AppType × Bool :=
  match j.manifests.lookup c.MainClassField with
  | some value =>
    if value = c.JarLauncherClassName then (AppType.zero, false)
    else if value = c.PropertiesLauncherClassName then (AppType.SpringBootFatJar, true)
    else (AppType.ExecutableJar, true)
  | none => (AppType.zero, false)

/-- The probe `tryPom` of `GetAppType`. -/
def GetAppType.tryPom (j : jarFile) : AppType × Bool :=
  match j.mvnProject with
  | some p =>
    if p.Parent.GroupId = SpringBootStarterGroupId ∧
        p.Parent.ArtifactId = SpringBootStarterArtifactId then
      (AppType.SpringBootFatJar, true)
    else (AppType.zero, false)
  | none => (AppType.zero, false)

/-- The loop of the probe `tryDeps` of `GetAppType`. -/
def GetAppType.tryDepsLoop : List String → AppType × Bool
  | [] => (AppType.zero, false)
  | lib :: rest =>
    if Contains lib SpringBootJarFilePrefix then (AppType.SpringBootFatJar, true)
    else GetAppType.tryDepsLoop rest

/-- The probe `tryDeps` of `GetAppType`. -/
def GetAppType.tryDeps (j : jarFile) : AppType × Bool :=
  GetAppType.tryDepsLoop j.dependencies

/-- The method `jarFile.GetAppType`. -/
def GetAppType (c : Consts) (j : jarFile) : AppType :=
  let r := tryFuncs.try AppType.zero
    [GetAppType.tryManifest c, GetAppType.tryPom, GetAppType.tryDeps] j
  if r.2 then r.1 else AppType.ExecutableJar

/-! ## `GetArtifactName` -/

/-- The probe `tryManifest` of `GetArtifactName`. -/
def GetArtifactName.tryManifest (c : Consts) (j : jarFile) : String × Bool :=
  match j.manifests.lookup c.AppNameField with
  | some value => (TrimSpace value, decide (len (TrimSpace value) > 0))
  | none => ("", false)

/-- The probe `tryPom` of `GetArtifactName`. -/
def GetArtifactName.tryPom (j : jarFile) : String × Bool :=
  match j.mvnProject with
  | none => ("", false)
  | some p => (p.Name, decide (len p.Name > 0))

/-- The probe `tryFilename` of `GetArtifactName`. -/
def GetArtifactName.tryFilename (j : jarFile) : String × Bool :=
  (TrimSuffix (Base j.remoteLocation) (Ext j.remoteLocation), true)

/-- The method `jarFile.GetArtifactName`. -/
def GetArtifactName (c : Consts) (j : jarFile) : String × Option GoError :=
  let r := tryFuncs.try ""
    [GetArtifactName.tryPom, GetArtifactName.tryManifest c, GetArtifactName.tryFilename] j
  if r.2 then (r.1, none) else ("", none)

/-! ## `GetAppName` and `GetAppPort` -/

/-- The functions of the package that `jarfile.go` calls and that are
defined in other files: the typed key lookup in YAML text (at the types
`string` and `int`), the key lookup in properties text, and the option
parser.  A Go result `(value, ok)` is an `Option`. -/
structure Lookups where
  GetConfigFromYamlString : String → String → Option String
  GetConfigFromYamlInt : String → String → Option Int
  GetConfigFromProperties : String → String → Option String
  ParseProperties : String → List (String × String)

/-- The interface `JavaProcess`, reduced to the result of the one method
the accessors call. -/
structure JavaProcess where
  GetJvmOptions : Except GoError (List String)

/-- The test `ext == ".yml" || ext == ".yaml"` on a file name. -/
def isYamlFile (f : String) : Bool :=
  Ext f == ".yml" || Ext f == ".yaml"

/-- The test `ext == ".properties"` on a file name. -/
def isPropertiesFile (f : String) : Bool :=
  Ext f == ".properties"

/-- The loop of the probe `tryAppYaml` of `GetAppName`. -/
def GetAppName.tryAppYamlLoop (x : Lookups) : List (String × String) → String × Bool
  | [] => ("", false)
  | (f, text) :: rest =>
    if isYamlFile f then
      match x.GetConfigFromYamlString ApplicationNameKey text with
      | some find => (TrimSpace find, decide (len (TrimSpace find) > 0))
      | none => GetAppName.tryAppYamlLoop x rest
    else GetAppName.tryAppYamlLoop x rest

/-- The probe `tryAppYaml` of `GetAppName`. -/
def GetAppName.tryAppYaml (x : Lookups) (j : jarFile) : String × Bool :=
  GetAppName.tryAppYamlLoop x j.applicationConfigurations

/-- The loop of the probe `tryAppProps` of `GetAppName`. -/
def GetAppName.tryAppPropsLoop (x : Lookups) : List (String × String) → String × Bool
  | [] => ("", false)
  | (f, text) :: rest =>
    if isPropertiesFile f then
      match x.GetConfigFromProperties ApplicationNameKey text with
      | some find => (TrimSpace find, decide (len (TrimSpace find) > 0))
      | none => GetAppName.tryAppPropsLoop x rest
    else GetAppName.tryAppPropsLoop x rest

/-- The probe `tryAppProps` of `GetAppName`. -/
def GetAppName.tryAppProps (x : Lookups) (j : jarFile) : String × Bool :=
  GetAppName.tryAppPropsLoop x j.applicationConfigurations

/-- The loop of the probe `tryOptions` of `GetAppName` over the parsed
options. -/
def GetAppName.tryOptionsLoop : List (String × String) → String × Bool
  | [] => ("", false)
  | (k, v) :: rest =>
    if TrimSpace k = "-D" ++ ApplicationNameKey then (v, decide (len v > 0))
    else GetAppName.tryOptionsLoop rest

/-- The probe `tryOptions` of `GetAppName`. -/
def GetAppName.tryOptions (x : Lookups) (process : JavaProcess) (_j : jarFile) :
    String × Bool :=
  match process.GetJvmOptions with
  | .error _ => ("", false)
  | .ok options => GetAppName.tryOptionsLoop (x.ParseProperties (Join options "\n"))

/-- The method `jarFile.GetAppName`. -/
def GetAppName (x : Lookups) (j : jarFile) (process : JavaProcess) :
    String × Option GoError :=
  let r := tryFuncs.try ""
    [GetAppName.tryOptions x process, GetAppName.tryAppProps x, GetAppName.tryAppYaml x] j
  if r.2 then (r.1, none) else ("", none)

/-- The conversion `strconv.Atoi(strings.TrimSpace(find))` with the two
outcomes the probes of `GetAppPort` give it. -/
def parsePort (find : String) : Int × Bool :=
  match Atoi (TrimSpace find) with
  | none => (0, false)
  | some port => (port, true)

/-- The loop of the probe `tryAppYaml` of `GetAppPort`. -/
def GetAppPort.tryAppYamlLoop (x : Lookups) : List (String × String) → Int × Bool
  | [] => (0, false)
  | (f, text) :: rest =>
    if isYamlFile f then
      match x.GetConfigFromYamlInt ApplicationPortKey text with
      | some port => (port, true)
      | none =>
        match x.GetConfigFromYamlString ApplicationPortKey text with
        | some find => parsePort find
        | none => GetAppPort.tryAppYamlLoop x rest
    else GetAppPort.tryAppYamlLoop x rest

/-- The probe `tryAppYaml` of `GetAppPort`. -/
def GetAppPort.tryAppYaml (x : Lookups) (j : jarFile) : Int × Bool :=
  GetAppPort.tryAppYamlLoop x j.applicationConfigurations

/-- The loop of the probe `tryAppProps` of `GetAppPort`. -/
def GetAppPort.tryAppPropsLoop (x : Lookups) : List (String × String) → Int × Bool
  | [] => (0, false)
  | (f, text) :: rest =>
    if isPropertiesFile f then
      match x.GetConfigFromProperties ApplicationPortKey text with
      | some find => parsePort find
      | none => GetAppPort.tryAppPropsLoop x rest
    else GetAppPort.tryAppPropsLoop x rest

/-- The probe `tryAppProps` of `GetAppPort`. -/
def GetAppPort.tryAppProps (x : Lookups) (j : jarFile) : Int × Bool :=
  GetAppPort.tryAppPropsLoop x j.applicationConfigurations

/-- The loop of the probe `tryOptions` of `GetAppPort` over the parsed
options. -/
def GetAppPort.tryOptionsLoop : List (String × String) → Int × Bool
  | [] => (0, false)
  | (k, v) :: rest =>
    if k = "-D" ++ ApplicationPortKey ∨ k = "--" ++ ApplicationPortKey then parsePort v
    else GetAppPort.tryOptionsLoop rest

/-- The probe `tryOptions` of `GetAppPort`. -/
def GetAppPort.tryOptions (x : Lookups) (process : JavaProcess) (_j : jarFile) :
    Int × Bool :=
  match process.GetJvmOptions with
  | .error _ => (0, false)
  | .ok options => GetAppPort.tryOptionsLoop (x.ParseProperties (Join options "\n"))

/-- The probe `defaultPort` of `GetAppPort`. -/
def GetAppPort.defaultPort (_j : jarFile) : Int × Bool :=
  (8080, true)

/-- The method `jarFile.GetAppPort`. -/
def GetAppPort (x : Lookups) (j : jarFile) (process : JavaProcess) :
    Int × Option GoError :=
  let r := tryFuncs.try 0
    [GetAppPort.tryOptions x process, GetAppPort.tryAppYaml x, GetAppPort.tryAppProps x,
      GetAppPort.defaultPort] j
  if r.2 then (r.1, none) else (0, none)

/-- The probe chain of `GetAppPort` with the YAML probe left out. -/
def GetAppPort.withoutYaml (x : Lookups) (j : jarFile) (process : JavaProcess) :
    Int × Option GoError :=
  let r := tryFuncs.try 0
    [GetAppPort.tryOptions x process, GetAppPort.tryAppProps x, GetAppPort.defaultPort] j
  if r.2 then (r.1, none) else (0, none)

/-- The process options supply no port: `GetJvmOptions` fails, or the
parsed options hold neither the key `-Dserver.port` nor `--server.port`. -/
def optionsSupplyNoPort (x : Lookups) (process : JavaProcess) : Prop :=
  (∃ e, process.GetJvmOptions = .error e) ∨
  ∃ options, process.GetJvmOptions = .ok options ∧
    ∀ e ∈ x.ParseProperties (Join options "\n"),
      e.1 ≠ "-Dserver.port" ∧ e.1 ≠ "--server.port"

/-- There are no process options: `GetJvmOptions` fails, or it returns the
empty list and the option parser finds no entry in the empty text. -/
def noProcessOptions (x : Lookups) (process : JavaProcess) : Prop :=
  (∃ e, process.GetJvmOptions = .error e) ∨
  (process.GetJvmOptions = .ok [] ∧ x.ParseProperties "" = [])

/-- The YAML loop of `GetAppPort` passes over an entry: it is no YAML file,
or neither the typed nor the string lookup finds the port key in it. -/
def yamlPortSkips (x : Lookups) (e : String × String) : Prop :=
  isYamlFile e.1 = false ∨
  (x.GetConfigFromYamlInt "server.port" e.2 = none ∧
    x.GetConfigFromYamlString "server.port" e.2 = none)

/-- The value that the YAML probe of `GetAppPort` looks up as a string: the
first entry in visiting order that the loop does not pass over is a YAML
file in which the typed lookup misses and the string lookup yields `v`. -/
def yamlPortStringValue (x : Lookups) (cfgs : List (String × String)) (v : String) : Prop :=
  ∃ pre f text post, cfgs = pre ++ (f, text) :: post ∧ (∀ e ∈ pre, yamlPortSkips x e) ∧
    isYamlFile f = true ∧ x.GetConfigFromYamlInt "server.port" text = none ∧
    x.GetConfigFromYamlString "server.port" text = some v

/-- The properties loop of `GetAppPort` passes over an entry: it is no
`.properties` file, or the lookup does not find the port key in it. -/
def propsPortSkips (x : Lookups) (e : String × String) : Prop :=
  isPropertiesFile e.1 = false ∨ x.GetConfigFromProperties "server.port" e.2 = none

/-- The value that the properties probe of `GetAppPort` looks up: the first
entry in visiting order that the loop does not pass over yields `w`. -/
def propsPortValue (x : Lookups) (cfgs : List (String × String)) (w : String) : Prop :=
  ∃ pre f text post, cfgs = pre ++ (f, text) :: post ∧ (∀ e ∈ pre, propsPortSkips x e) ∧
    isPropertiesFile f = true ∧ x.GetConfigFromProperties "server.port" text = some w

/-- The snapshot has exactly one YAML application-config file, and the typed
integer lookup of the port key in it yields `p`. -/
def onlyYamlHasPort (x : Lookups) (cfgs : List (String × String)) (p : Int) : Prop :=
  ∃ pre f text post, cfgs = pre ++ (f, text) :: post ∧
    (∀ e ∈ pre ++ post, isYamlFile e.1 = false) ∧
    isYamlFile f = true ∧ x.GetConfigFromYamlInt "server.port" text = some p

/-- The descriptor probe of `GetArtifactName` has nothing to offer: the
descriptor is absent or its declared name is empty. -/
def descriptorNameMissing (j : jarFile) : Prop :=
  j.mvnProject = none ∨ ∃ p, j.mvnProject = some p ∧ p.Name = ""

/-- The manifest probe of `GetArtifactName` has nothing to offer: the
application-name key is absent or its trimmed value is empty. -/
def manifestNameMissing (c : Consts) (j : jarFile) : Prop :=
  j.manifests.lookup c.AppNameField = none ∨
    ∃ v, j.manifests.lookup c.AppNameField = some v ∧ TrimSpace v = ""

/-- The descriptor is present and its parent is the Spring Boot starter. -/
def hasStarterParent (j : jarFile) : Prop :=
  ∃ p, j.mvnProject = some p ∧ p.Parent.GroupId = "org.springframework.boot" ∧
    p.Parent.ArtifactId = "spring-boot-starter-parent"

/-- Some dependency contains the substring `spring-boot`. -/
def hasSpringBootDep (j : jarFile) : Prop :=
  ∃ lib ∈ j.dependencies, "spring-boot".data <:+: lib.data

/-- Go's builtin `delete(m, key)` on a map given by its entries. -/
def deleteKey (key : String) (m : List (String × String)) : List (String × String) :=
  m.filter (fun e => e.1 != key)

/-- The probe chain of `GetAppName` restricted to the two config-file
probes, in their order. -/
def GetAppName.fromConfigFiles (x : Lookups) (j : jarFile) : String × Option GoError :=
  let r := tryFuncs.try "" [GetAppName.tryAppProps x, GetAppName.tryAppYaml x] j
  if r.2 then (r.1, none) else ("", none)

/-- The process options supply no application name: `GetJvmOptions` fails,
or every parsed option whose trimmed key is `-Dspring.application.name`
has the empty value. -/
def optionsSupplyNoName (x : Lookups) (process : JavaProcess) : Prop :=
  (∃ e, process.GetJvmOptions = .error e) ∨
  ∃ options, process.GetJvmOptions = .ok options ∧
    ∀ e ∈ x.ParseProperties (Join options "\n"),
      TrimSpace e.1 = "-Dspring.application.name" → e.2 = ""

/-- The properties loop of `GetAppName` passes over an entry: it is no
`.properties` file, or the lookup does not find the name key in it. -/
def propsNameSkips (x : Lookups) (e : String × String) : Prop :=
  isPropertiesFile e.1 = false ∨
    x.GetConfigFromProperties "spring.application.name" e.2 = none

/-- The value that the properties probe of `GetAppName` looks up: the first
entry in visiting order that the loop does not pass over yields `v`. -/
def propsNameValue (x : Lookups) (cfgs : List (String × String)) (v : String) : Prop :=
  ∃ pre f text post, cfgs = pre ++ (f, text) :: post ∧ (∀ e ∈ pre, propsNameSkips x e) ∧
    isPropertiesFile f = true ∧
    x.GetConfigFromProperties "spring.application.name" text = some v

/-- The snapshot has exactly one `.properties` application-config file, and
the lookup of the name key in it yields `v`. -/
def onlyPropertiesHasName (x : Lookups) (cfgs : List (String × String)) (v : String) :
    Prop :=
  ∃ pre f text post, cfgs = pre ++ (f, text) :: post ∧
    (∀ e ∈ pre ++ post, isPropertiesFile e.1 = false) ∧
    isPropertiesFile f = true ∧
    x.GetConfigFromProperties "spring.application.name" text = some v

/-- Among the parsed options, the first entry in visiting order whose key
is `-Dserver.port` or `--server.port` has the value `v`. -/
def optionsPortValue (m : List (String × String)) (v : String) : Prop :=
  ∃ pre k post, m = pre ++ (k, v) :: post ∧
    (∀ e ∈ pre, e.1 ≠ "-Dserver.port" ∧ e.1 ≠ "--server.port") ∧
    (k = "-Dserver.port" ∨ k = "--server.port")

/-- Following the spec's words ("first non-empty trimmed match wins"), for
comparison with the properties probe of `GetAppName`: the trimmed value of
the first `.properties` file in scan order whose value for the name key is
non-empty after trimming. -/
def firstNonBlankPropsName (x : Lookups) : List (String × String) → Option String
  | [] => none
  | (f, text) :: rest =>
    if isPropertiesFile f then
      match x.GetConfigFromProperties "spring.application.name" text with
      | some v =>
        if TrimSpace v ≠ "" then some (TrimSpace v) else firstNonBlankPropsName x rest
      | none => firstNonBlankPropsName x rest
    else firstNonBlankPropsName x rest

/-! ## `GetBuildJdkVersion` and `GetSpringBootVersion` -/

/-- The loop of the probe `tryPom` of `GetBuildJdkVersion` over the key
list: the first key present in the properties ends the loop. -/
def GetBuildJdkVersion.tryPomLoop (props : List (String × String)) :
    List String → String × Bool
  | [] => ("", false)
  | key :: rest =>
    match props.lookup key with
    | some value => (TrimSpace value, decide (len (TrimSpace value) > 0))
    | none => GetBuildJdkVersion.tryPomLoop props rest

/-- The probe `tryPom` of `GetBuildJdkVersion`. -/
def GetBuildJdkVersion.tryPom (j : jarFile) : String × Bool :=
  match j.mvnProject with
  | none => ("", false)
  | some p =>
    GetBuildJdkVersion.tryPomLoop p.Properties
      [JavaVersionPropertyName, CompilerReleasePropertyName, CompilerTargetPropertyName]

/-- The probe `try1x` of `GetBuildJdkVersion`. -/
def GetBuildJdkVersion.try1x (c : Consts) (j : jarFile) : String × Bool :=
  match j.manifests.lookup c.JdkVersionFieldFor1x with
  | some value => (TrimSpace value, decide (len (TrimSpace value) > 0))
  | none => ("", false)

/-- The probe `try2x` of `GetBuildJdkVersion`. -/
def GetBuildJdkVersion.try2x (c : Consts) (j : jarFile) : String × Bool :=
  match j.manifests.lookup c.JdkVersionField with
  | some value => (TrimSpace value, decide (len (TrimSpace value) > 0))
  | none => ("", false)

/-- The method `jarFile.GetBuildJdkVersion`. -/
def GetBuildJdkVersion (c : Consts) (j : jarFile) : String × Option GoError :=
  let r := tryFuncs.try ""
    [GetBuildJdkVersion.tryPom, GetBuildJdkVersion.try2x c, GetBuildJdkVersion.try1x c] j
  if r.2 then (r.1, none) else ("", none)

/-- The probe `tryManifest` of `GetSpringBootVersion`. -/
def GetSpringBootVersion.tryManifest (c : Consts) (j : jarFile) : String × Bool :=
  match j.manifests.lookup c.SpringBootVersionField with
  | some value => (TrimSpace value, true)
  | none => ("", false)

/-- The probe `tryPom` of `GetSpringBootVersion`. -/
def GetSpringBootVersion.tryPom (j : jarFile) : String × Bool :=
  match j.mvnProject with
  | none => ("", false)
  | some p =>
    if p.Parent.GroupId = SpringBootStarterGroupId ∧
        p.Parent.ArtifactId = SpringBootStarterArtifactId then
      (TrimSpace p.Parent.Version, decide (len (TrimSpace p.Parent.Version) > 0))
    else ("", false)

/-- The method `jarFile.GetSpringBootVersion`. -/
def GetSpringBootVersion (c : Consts) (j : jarFile) : String × Option GoError :=
  let r := tryFuncs.try ""
    [GetSpringBootVersion.tryPom, GetSpringBootVersion.tryManifest c] j
  if r.2 then (r.1, none) else ("", none)

/-- The trimmed value of a manifest key when the key is present with a
value that is not blank. -/
def manifestNonBlank (j : jarFile) (key : String) : Option String :=
  match j.manifests.lookup key with
  | some value => if TrimSpace value ≠ "" then some (TrimSpace value) else none
  | none => none

/-- The descriptor of the snapshot names the Spring Boot starter as parent,
with a parent version that is not blank; `v` is that version. -/
def starterVersion (j : jarFile) (v : String) : Prop :=
  ∃ p, j.mvnProject = some p ∧ p.Parent.GroupId = "org.springframework.boot" ∧
    p.Parent.ArtifactId = "spring-boot-starter-parent" ∧ p.Parent.Version = v ∧
    TrimSpace v ≠ ""

/-! ## `readFileInArchive` -/

/-- The `io.ReadCloser` returned by `zip.File.Open`, reduced to the outcome
of `ioutil.ReadAll` on it. -/
structure ReadCloser where
  ReadAll : Except GoError String

/-- The part of `zip.File` that `readFileInArchive` uses: the entry name
and the outcome of `Open`. -/
structure ZipFile where
  Name : String
  Open : Except GoError ReadCloser

/-- Go `err.Error()`: the message of an error.  The method of
`DiscoveryError` is declared in another file of the package; its `message`
field is taken as its text. -/
def GoError.Error : GoError → String
  | .DiscoveryError message _ => message
  | .foreign message => message

/-- The function `readFileInArchive`. -/
def readFileInArchive (f : ZipFile) : String × Option GoError :=
  match f.Open with
  | .error err => ("", some err)
  | .ok fileInArchive =>
    match fileInArchive.ReadAll with
    | .error err =>
      ("", some (GoError.DiscoveryError
        ("failed to read file " ++ f.Name ++ " from archive, " ++ err.Error)
        Severity.Error))
    | .ok content => (content, none)

/-- The severity carried by an error value, if it is a `DiscoveryError`. -/
def GoError.severity? : GoError → Option Severity
  | .DiscoveryError _ severity => some severity
  | .foreign _ => none

/-! ## `parseManifests` -/

/-- Go `bufio.MaxScanTokenSize`: the buffer limit of a `bufio.Scanner`. -/
def MaxScanTokenSize : Nat := 64 * 1024

/-- The pieces of a text between its line feeds; what follows the last
line feed is a piece only when it is not empty.  `cur` holds the current
piece reversed. -/
def rawLines : List Char → List Char → List (List Char)
  | [], cur => if cur = [] then [] else [cur.reverse]
  | c :: cs, cur =>
    if c = '\n' then cur.reverse :: rawLines cs [] else rawLines cs (c :: cur)

/-- The helper `dropCR` of `bufio.ScanLines`: one trailing carriage return
is removed. -/
def dropCR (line : List Char) : List Char :=
  if line.getLast? = some '\r' then line.dropLast else line

/-- The bytes of a piece of text in UTF-8. -/
def byteLen (l : List Char) : Nat :=
  (l.map Char.utf8Size).sum

/-- The tokens that a `bufio.Scanner` with the split function `ScanLines`
delivers: scanning stops for good at the first line that does not fit the
buffer. -/
def scanTokens : List (List Char) → List String
  | [] => []
  | line :: rest =>
    if byteLen line < MaxScanTokenSize then ⟨dropCR line⟩ :: scanTokens rest else []

/-- The successive results of `scanner.Text()` in the loop
`for scanner.Scan()` over `bufio.NewScanner(bytes.NewBufferString(content))`. -/
def ScannerLines (content : String) : List String :=
  scanTokens (rawLines content.data [])

/-- Go `strings.Index(line, ":")`, counted in characters: the position of
the first colon, or `-1`.  The code only compares the index with zero and
cuts the line at it, and the colon is a single byte, so counting
characters instead of bytes cuts at the same place. -/
def IndexColon (line : String) : Int :=
  if ':' ∈ line.data then ((line.data.takeWhile (fun c => c != ':')).length : Int) else -1

/-- Go's map assignment `m[key] = value`. -/
def mapSet (m : List (String × String)) (key value : String) : List (String × String) :=
  (key, value) :: deleteKey key m

/-- The key and the value that the loop body of `parseManifests` assigns for
one line. -/
def parseManifests.binding (line : String) : String × String :=
  let idx := IndexColon line
  if idx > 0 then
    (TrimSpace ⟨line.data.take idx.toNat⟩, TrimSpace ⟨line.data.drop (idx.toNat + 1)⟩)
  else (TrimSpace line, "")

/-- The loop body of `parseManifests`. -/
def parseManifests.step (manifests : List (String × String)) (line : String) :
    List (String × String) :=
  mapSet manifests (parseManifests.binding line).1 (parseManifests.binding line).2

/-- The function `parseManifests`. -/
def parseManifests (content : String) : List (String × String) :=
  (ScannerLines content).foldl parseManifests.step []

/-- Following the spec's words ("split at the first colon; left side trimmed
is the key, right side trimmed is the value; a line without a colon becomes
a key with empty value"), for comparison with `parseManifests.binding`. -/
def splitAtFirstColon (line : String) : String × String :=
  if ':' ∈ line.data then
    (TrimSpace ⟨line.data.takeWhile (fun c => c != ':')⟩,
      TrimSpace ⟨(line.data.dropWhile (fun c => c != ':')).tail⟩)
  else (TrimSpace line, "")

/-- A string is free of leading and trailing white space. -/
def isTrimmed (s : String) : Prop :=
  (∀ c, s.data.head? = some c → isSpace c = false) ∧
  (∀ c, s.data.getLast? = some c → isSpace c = false)

/-- The map of application-config files holds at most one YAML file and at
most one `.properties` file. -/
def oneFilePerKind (cfgs : List (String × String)) : Prop :=
  (cfgs.filter (fun e => isYamlFile e.1)).length ≤ 1 ∧
  (cfgs.filter (fun e => isPropertiesFile e.1)).length ≤ 1

/-- The option probe of `GetAppName` matches the key of this entry. -/
def isNameOption (e : String × String) : Bool :=
  decide (TrimSpace e.1 = "-D" ++ ApplicationNameKey)

/-- The option probe of `GetAppPort` matches the key of this entry. -/
def isPortOption (e : String × String) : Bool :=
  decide (e.1 = "-D" ++ ApplicationPortKey ∨ e.1 = "--" ++ ApplicationPortKey)

/-- The parsed option map holds at most one key that the option probe of
`GetAppName` matches and at most one that the option probe of `GetAppPort`
matches. -/
def oneOptionPerProbe (m : List (String × String)) : Prop :=
  (m.filter isNameOption).length ≤ 1 ∧ (m.filter isPortOption).length ≤ 1

/-! ## Fixtures for the closed examples -/

/-- The key and class names as the Spring Boot tooling writes them. -/
def stdConsts : Consts where
  MainClassField := "Main-Class"
  JarLauncherClassName := "org.springframework.boot.loader.JarLauncher"
  PropertiesLauncherClassName := "org.springframework.boot.loader.PropertiesLauncher"
  AppNameField := "Implementation-Title"
  JdkVersionField := "Build-Jdk-Spec"
  JdkVersionFieldFor1x := "Build-Jdk"
  SpringBootVersionField := "Spring-Boot-Version"
  VersionField := "Implementation-Version"

/-- A snapshot with every source empty. -/
def emptyJar (location : String) : jarFile where
  checksum := ""
  remoteLocation := location
  manifests := []
  dependencies := []
  applicationConfigurations := []
  loggingConfigs := []
  certificates := []
  staticFiles := []
  mvnProject := none
  lastModifiedTime := 0
  size := 0

/-- A build descriptor whose parent is the Spring Boot starter. -/
def starterPom (version : String) : MavenProject where
  Parent := ⟨SpringBootStarterGroupId, SpringBootStarterArtifactId, version⟩
  Name := ""
  Version := ""
  Properties := []

/-- Split a text at its line feeds; `cur` holds the current line reversed. -/
def splitLines : List Char → List Char → List (List Char)
  | [], cur => [cur.reverse]
  | c :: cs, cur =>
    if c = '\n' then cur.reverse :: splitLines cs [] else splitLines cs (c :: cur)

/-- The rest of `l` after the leading `pre`, if `l` starts with `pre`. -/
def dropPrefix? : List Char → List Char → Option (List Char)
  | [], l => some l
  | _ :: _, [] => none
  | p :: ps, c :: cs => if p = c then dropPrefix? ps cs else none

/-- The rest of the first line of `text` that starts with `pre`. -/
def lineValue (pre text : String) : Option String :=
  (splitLines text.data []).findSome? (fun line => (dropPrefix? pre.data line).map String.mk)

/-- A line `key=value` as a pair, split at the first `=`. -/
def splitOption (line : List Char) : Option (String × String) :=
  match line.dropWhile (fun c => c != '=') with
  | [] => none
  | _ :: v => some (⟨line.takeWhile (fun c => c != '=')⟩, ⟨v⟩)

/-- Simple line-based lookups standing in for the package's YAML,
properties and option parsers in the closed examples: `key: value` lines
for YAML, `key=value` lines for properties and options. -/
def demoLookups : Lookups where
  GetConfigFromYamlString key text := lineValue (key ++ ": ") text
  GetConfigFromYamlInt key text := (lineValue (key ++ ": ") text).bind Atoi
  GetConfigFromProperties key text := lineValue (key ++ "=") text
  ParseProperties text := (splitLines text.data []).filterMap splitOption

/-- A process whose option source returns the given options. -/
def processWith (options : List String) : JavaProcess where
  GetJvmOptions := .ok options

/-! ## Properties of the first-match evaluator -/

/-- A probe list in which no probe succeeds yields `(zero, false)`. -/
theorem try_all_miss {J T : Type} (zero : T) (ts : List (J → T × Bool)) (file : J)
    (h : ∀ f ∈ ts, (f file).2 = false) : tryFuncs.try zero ts file = (zero, false) := by
  induction ts with
  | nil => rfl
  | cons f ts ih =>
    have hf : (f file).2 = false := h f (List.mem_cons_self _ _)
    have hts : ∀ g ∈ ts, (g file).2 = false := fun g hg => h g (List.mem_cons_of_mem _ hg)
    simp [tryFuncs.try, hf, ih hts]

/-- Probes that miss in front of the list can be dropped. -/
theorem try_skip_misses {J T : Type} (zero : T) (pre ts : List (J → T × Bool)) (file : J)
    (h : ∀ f ∈ pre, (f file).2 = false) :
    tryFuncs.try zero (pre ++ ts) file = tryFuncs.try zero ts file := by
  induction pre with
  | nil => rfl
  | cons f pre ih =>
    have hf : (f file).2 = false := h f (List.mem_cons_self _ _)
    have hpre : ∀ g ∈ pre, (g file).2 = false := fun g hg => h g (List.mem_cons_of_mem _ hg)
    simp [tryFuncs.try, hf, ih hpre]

/-- The found flag of the evaluator is false exactly when every probe misses. -/
theorem try_found_false_iff {J T : Type} (zero : T) (ts : List (J → T × Bool)) (file : J) :
    (tryFuncs.try zero ts file).2 = false ↔ ∀ f ∈ ts, (f file).2 = false := by
  induction ts with
  | nil => simp [tryFuncs.try]
  | cons f ts ih =>
    by_cases hf : (f file).2 = true
    · simp [tryFuncs.try, hf]
    · have hf2 : (f file).2 = false := by simpa using hf
      simp [tryFuncs.try, hf2, ih]

/-- C1: `tryFuncs.try` is first-match.  If the probe list splits as
`pre ++ f :: post` where every probe of `pre` reports not found and `f`
reports found, the result is `(value of f, true)` whatever `post` is; and
the result is `(zero, false)` if and only if every probe of the list
reports not found, which includes the empty list. -/
theorem try_first_match {J T : Type} (zero : T) (file : J) :
    (∀ (pre post : List (J → T × Bool)) (f : J → T × Bool),
        (∀ g ∈ pre, (g file).2 = false) → (f file).2 = true →
        tryFuncs.try zero (pre ++ f :: post) file = ((f file).1, true)) ∧
    (∀ ts : List (J → T × Bool),
        tryFuncs.try zero ts file = (zero, false) ↔ ∀ f ∈ ts, (f file).2 = false) ∧
    tryFuncs.try zero ([] : List (J → T × Bool)) file = (zero, false) := by
  refine ⟨?_, ?_, rfl⟩
  · intro pre post f hpre hf
    rw [try_skip_misses zero pre (f :: post) file hpre]
    simp [tryFuncs.try, hf]
  · intro ts
    constructor
    · intro h
      exact (try_found_false_iff zero ts file).1 (by rw [h])
    · exact try_all_miss zero ts file

/-- C1 at a concrete probe list: the second probe is the first to succeed,
so its value 7 is returned although the third probe would give 9. -/
theorem try_first_match_witness :
    tryFuncs.try (0 : Nat)
      ([fun _ => (5, false)] ++ (fun _ => (7, true)) :: [fun _ => (9, true)]) () = (7, true) :=
  (try_first_match (0 : Nat) ()).1 [fun _ => (5, false)] [fun _ => (9, true)]
    (fun _ => (7, true)) (by simp) rfl

/-! ## Properties of `GetAppType` -/

/-- The model of `strings.Contains` agrees with the list notion of a
contiguous sublist. -/
theorem containsL_iff_isInfix (sub l : List Char) :
    containsL sub l = true ↔ sub <:+: l := by
  induction l with
  | nil => simp [containsL, List.isEmpty_iff]
  | cons c cs ih =>
    simp only [containsL, Bool.or_eq_true, List.isPrefixOf_iff_prefix, ih]
    rw [List.infix_cons_iff]

/-- `strings.Contains(s, substr)` holds exactly when the characters of
`substr` occur contiguously in `s`. -/
theorem Contains_iff (s substr : String) :
    Contains s substr = true ↔ substr.data <:+: s.data :=
  containsL_iff_isInfix substr.data s.data

theorem tryPom_found_iff (j : jarFile) :
    (GetAppType.tryPom j).2 = true ↔ hasStarterParent j := by
  unfold GetAppType.tryPom hasStarterParent
  cases hp : j.mvnProject with
  | none => simp
  | some p =>
    by_cases h : p.Parent.GroupId = SpringBootStarterGroupId ∧
        p.Parent.ArtifactId = SpringBootStarterArtifactId
    · simp only [h, and_self, if_true]
      simpa [SpringBootStarterGroupId, SpringBootStarterArtifactId] using h
    · simp only [h, if_false]
      simpa [SpringBootStarterGroupId, SpringBootStarterArtifactId] using h

theorem tryPom_value (j : jarFile) (h : (GetAppType.tryPom j).2 = true) :
    (GetAppType.tryPom j).1 = AppType.SpringBootFatJar := by
  unfold GetAppType.tryPom at h ⊢
  cases hp : j.mvnProject with
  | none => simp [hp] at h
  | some p =>
    simp only [hp] at h ⊢
    split
    · rfl
    · rename_i hn; simp [hn] at h

theorem tryDepsLoop_found_iff (deps : List String) :
    (GetAppType.tryDepsLoop deps).2 = true ↔
      ∃ lib ∈ deps, "spring-boot".data <:+: lib.data := by
  induction deps with
  | nil => simp [GetAppType.tryDepsLoop]
  | cons lib rest ih =>
    unfold GetAppType.tryDepsLoop
    by_cases h : Contains lib SpringBootJarFilePrefix = true
    · have h2 := (Contains_iff lib SpringBootJarFilePrefix).1 h
      simp only [h, if_true, List.mem_cons, true_iff]
      exact ⟨lib, Or.inl rfl, h2⟩
    · have h2 : ¬ ("spring-boot".data <:+: lib.data) := fun hx =>
        h ((Contains_iff lib SpringBootJarFilePrefix).2 hx)
      have hf : Contains lib SpringBootJarFilePrefix = false := by simpa using h
      simp only [hf, Bool.false_eq_true, if_false, ih, List.mem_cons]
      constructor
      · rintro ⟨l, hl, hc⟩; exact ⟨l, Or.inr hl, hc⟩
      · rintro ⟨l, hl | hl, hc⟩
        · subst hl; exact absurd hc h2
        · exact ⟨l, hl, hc⟩

theorem tryDepsLoop_value (deps : List String) (h : (GetAppType.tryDepsLoop deps).2 = true) :
    (GetAppType.tryDepsLoop deps).1 = AppType.SpringBootFatJar := by
  induction deps with
  | nil => simp [GetAppType.tryDepsLoop] at h
  | cons lib rest ih =>
    unfold GetAppType.tryDepsLoop at h ⊢
    by_cases hc : Contains lib SpringBootJarFilePrefix = true
    · simp [hc]
    · have hf : Contains lib SpringBootJarFilePrefix = false := by simpa using hc
      simp only [hf, Bool.false_eq_true, if_false] at h ⊢
      exact ih h

/-- When the manifest probe reports not found, the descriptor and the
dependency list decide the packaging type. -/
theorem GetAppType_of_manifest_miss (c : Consts) (j : jarFile)
    (h : (GetAppType.tryManifest c j).2 = false) :
    (GetAppType c j = AppType.SpringBootFatJar ↔ hasStarterParent j ∨ hasSpringBootDep j) ∧
    (¬ (hasStarterParent j ∨ hasSpringBootDep j) → GetAppType c j = AppType.ExecutableJar) := by
  have hpom := tryPom_found_iff j
  have hdep : (GetAppType.tryDeps j).2 = true ↔ hasSpringBootDep j :=
    tryDepsLoop_found_iff j.dependencies
  unfold GetAppType
  simp only [tryFuncs.try, h]
  by_cases h1 : (GetAppType.tryPom j).2 = true
  · have v := tryPom_value j h1
    simp [h1, v, hpom.1 h1]
  · have h1f : (GetAppType.tryPom j).2 = false := by simpa using h1
    have np : ¬ hasStarterParent j := fun hx => h1 (hpom.2 hx)
    by_cases h2 : (GetAppType.tryDeps j).2 = true
    · have v : (GetAppType.tryDeps j).1 = AppType.SpringBootFatJar :=
        tryDepsLoop_value j.dependencies h2
      simp [h1f, h2, v, hdep.1 h2]
    · have h2f : (GetAppType.tryDeps j).2 = false := by simpa using h2
      have nd : ¬ hasSpringBootDep j := fun hx => h2 (hdep.2 hx)
      simp [h1f, h2f, np, nd]

theorem lookup_deleteKey (key : String) (m : List (String × String)) :
    (deleteKey key m).lookup key = none := by
  induction m with
  | nil => rfl
  | cons e m ih =>
    obtain ⟨k, v⟩ := e
    unfold deleteKey at ih ⊢
    rw [List.filter_cons]
    by_cases hk : k = key
    · have hb : (k != key) = false := by simp [hk]
      simpa [hb] using ih
    · have hb : (k != key) = true := by simpa using hk
      have hb2 : (key == k) = false := by simpa using fun h => hk h.symm
      simp only [hb, if_true, List.lookup, hb2]
      exact ih

theorem tryManifest_miss_of_absent (c : Consts) (j : jarFile)
    (h : j.manifests.lookup c.MainClassField = none) :
    GetAppType.tryManifest c j = (AppType.zero, false) := by
  simp [GetAppType.tryManifest, h]

theorem tryManifest_miss_of_JarLauncher (c : Consts) (j : jarFile)
    (h : j.manifests.lookup c.MainClassField = some c.JarLauncherClassName) :
    GetAppType.tryManifest c j = (AppType.zero, false) := by
  simp [GetAppType.tryManifest, h]

/-- C2: the code at the input that separates it from the claim.  The
manifest holds only the main-class field with the value
`JarLauncherClassName`, the descriptor is absent and there are no
dependencies; `GetAppType` answers `ExecutableJar`, not `SpringBootFatJar`. -/
theorem GetAppType_JarLauncher_alone (c : Consts) :
    GetAppType c { emptyJar "app.jar" with
      manifests := [(c.MainClassField, c.JarLauncherClassName)] } = AppType.ExecutableJar := by
  simp [GetAppType, tryFuncs.try, GetAppType.tryManifest, GetAppType.tryPom,
    GetAppType.tryDeps, GetAppType.tryDepsLoop, emptyJar, List.lookup]

/-- C3: for a main-class value other than `JarLauncherClassName` the
manifest probe decides.  The value `PropertiesLauncherClassName` gives
`SpringBootFatJar`, every other value gives `ExecutableJar`, for every
descriptor and every dependency list of the snapshot. -/
theorem GetAppType_manifest_decisive (c : Consts) (j : jarFile) (value : String)
    (hv : j.manifests.lookup c.MainClassField = some value)
    (hne : value ≠ c.JarLauncherClassName) :
    (value = c.PropertiesLauncherClassName → GetAppType c j = AppType.SpringBootFatJar) ∧
    (value ≠ c.PropertiesLauncherClassName → GetAppType c j = AppType.ExecutableJar) := by
  constructor
  · intro hp
    have hne2 : ¬ c.PropertiesLauncherClassName = c.JarLauncherClassName := hp ▸ hne
    simp [GetAppType, tryFuncs.try, GetAppType.tryManifest, hv, hp, hne2]
  · intro hp
    simp [GetAppType, tryFuncs.try, GetAppType.tryManifest, hv, hp, hne]

/-- C3 at a snapshot whose descriptor and dependencies both point to Spring
Boot: an ordinary main class still gives `ExecutableJar`. -/
theorem GetAppType_manifest_decisive_witness :
    GetAppType stdConsts { emptyJar "app.jar" with
      manifests := [("Main-Class", "com.example.Main")],
      mvnProject := some (starterPom "2.7.0"),
      dependencies := ["BOOT-INF/lib/spring-boot-2.7.0.jar"] } = AppType.ExecutableJar :=
  (GetAppType_manifest_decisive stdConsts _ "com.example.Main" (by decide) (by decide)).2
    (by decide)

/-- C4: with the main-class value `JarLauncherClassName` the manifest probe
reports not found, and `GetAppType` returns what it returns for the
snapshot without the main-class field: `SpringBootFatJar` exactly when the
descriptor's parent is the Spring Boot starter or some dependency contains
`spring-boot`, and `ExecutableJar` otherwise. -/
theorem GetAppType_JarLauncher_falls_through (c : Consts) (j : jarFile)
    (hv : j.manifests.lookup c.MainClassField = some c.JarLauncherClassName) :
    GetAppType.tryManifest c j = (AppType.zero, false) ∧
    GetAppType c j =
      GetAppType c { j with manifests := deleteKey c.MainClassField j.manifests } ∧
    (GetAppType c j = AppType.SpringBootFatJar ↔ hasStarterParent j ∨ hasSpringBootDep j) ∧
    (¬ (hasStarterParent j ∨ hasSpringBootDep j) → GetAppType c j = AppType.ExecutableJar) := by
  have hm := tryManifest_miss_of_JarLauncher c j hv
  have hm2 := tryManifest_miss_of_absent c
    { j with manifests := deleteKey c.MainClassField j.manifests }
    (lookup_deleteKey c.MainClassField j.manifests)
  refine ⟨hm, ?_, GetAppType_of_manifest_miss c j (by rw [hm])⟩
  simp [GetAppType, tryFuncs.try, hm, hm2, GetAppType.tryPom, GetAppType.tryDeps]

/-- C4 at a snapshot with the launcher `JarLauncher` and one Spring Boot
library among the dependencies. -/
theorem GetAppType_JarLauncher_falls_through_witness :
    GetAppType stdConsts { emptyJar "app.jar" with
      manifests := [("Main-Class", "org.springframework.boot.loader.JarLauncher")],
      dependencies := ["BOOT-INF/lib/spring-boot-2.7.0.jar"] } =
    GetAppType stdConsts { emptyJar "app.jar" with
      manifests := deleteKey "Main-Class"
        [("Main-Class", "org.springframework.boot.loader.JarLauncher")],
      dependencies := ["BOOT-INF/lib/spring-boot-2.7.0.jar"] } :=
  (GetAppType_JarLauncher_falls_through stdConsts { emptyJar "app.jar" with
      manifests := [("Main-Class", "org.springframework.boot.loader.JarLauncher")],
      dependencies := ["BOOT-INF/lib/spring-boot-2.7.0.jar"] } (by decide)).2.1

/-- C5: for a manifest without main-class field, `GetAppType` returns
`SpringBootFatJar` if and only if the descriptor is present with parent
`org.springframework.boot` / `spring-boot-starter-parent` or some
dependency contains the substring `spring-boot`; otherwise it returns the
default `ExecutableJar`. -/
theorem GetAppType_without_main_class (c : Consts) (j : jarFile)
    (hv : j.manifests.lookup c.MainClassField = none) :
    (GetAppType c j = AppType.SpringBootFatJar ↔ hasStarterParent j ∨ hasSpringBootDep j) ∧
    (¬ (hasStarterParent j ∨ hasSpringBootDep j) → GetAppType c j = AppType.ExecutableJar) :=
  GetAppType_of_manifest_miss c j (by rw [tryManifest_miss_of_absent c j hv])

/-- C5 at the snapshot with an absent descriptor, no dependencies and an
empty manifest: the default `ExecutableJar`. -/
theorem GetAppType_without_main_class_witness :
    GetAppType stdConsts (emptyJar "app.jar") = AppType.ExecutableJar :=
  (GetAppType_without_main_class stdConsts (emptyJar "app.jar") (by decide)).2
    (by simp [hasStarterParent, hasSpringBootDep, emptyJar])

/-! ## Properties of `GetArtifactName` -/

/-- A Go string has positive length exactly when it is not empty. -/
theorem len_pos_iff (s : String) : len s > 0 ↔ s ≠ "" := by
  obtain ⟨l⟩ := s
  cases l with
  | nil => simp [len]
  | cons c cs =>
    have hc := Char.utf8Size_pos c
    constructor
    · intro _ h
      exact absurd (congrArg String.data h) (by simp)
    · intro _
      simp only [len, List.map_cons, List.sum_cons]
      omega

/-- The loop of `filepath.Ext` never looks beyond the last element. -/
theorem extLoop_takeWhile (l acc : List Char) :
    extLoop (l.takeWhile (fun c => !isPathSeparator c)) acc = extLoop l acc := by
  induction l generalizing acc with
  | nil => rfl
  | cons c rest ih =>
    by_cases hs : isPathSeparator c = true
    · simp [List.takeWhile, hs, extLoop]
    · have hf : isPathSeparator c = false := by simpa using hs
      simp only [List.takeWhile, hf, Bool.not_false, extLoop, Bool.false_eq_true, if_false]
      split
      · rfl
      · exact ih (c :: acc)

/-- For a location that is not empty and does not end in a separator, the
extension of the location is the extension of its base name. -/
theorem Ext_Base (path : String) (c : Char) (h : path.data.getLast? = some c)
    (hc : isPathSeparator c = false) : Ext (Base path) = Ext path := by
  obtain ⟨l⟩ := path
  have hrev : l.reverse = c :: l.dropLast.reverse := by
    have hl : l = l.dropLast ++ [c] := by
      have hne : l ≠ [] := by
        intro h0; subst h0; simp at h
      have := List.dropLast_append_getLast hne
      rw [List.getLast?_eq_getLast _ hne] at h
      simp only [Option.some.injEq] at h
      rw [h] at this
      exact this.symm
    conv_lhs => rw [hl]
    simp
  have hne : l ≠ [] := by
    intro h0; subst h0; simp at h
  unfold Base Ext
  simp only [hne, if_false]
  have hdrop : l.reverse.dropWhile isPathSeparator = l.reverse := by
    rw [hrev]; simp [List.dropWhile, hc]
  rw [hdrop]
  have htw : (l.reverse.takeWhile (fun c => !isPathSeparator c)) ≠ [] := by
    rw [hrev]; simp [List.takeWhile, hc]
  have htw2 : (l.reverse.takeWhile (fun c => !isPathSeparator c)).reverse ≠ [] := by
    simpa using htw
  simp only [htw2, if_false, List.reverse_reverse]
  rw [extLoop_takeWhile]

theorem decide_len_pos (s : String) : decide (len s > 0) = true ↔ s ≠ "" := by
  rw [decide_eq_true_iff]; exact len_pos_iff s

theorem artifact_tryPom_miss (j : jarFile) (h : descriptorNameMissing j) :
    (GetArtifactName.tryPom j).2 = false := by
  unfold GetArtifactName.tryPom
  rcases h with h | ⟨p, hp, hn⟩
  · simp [h]
  · simp [hp, hn, len]

theorem artifact_tryPom_miss_iff (j : jarFile) :
    (GetArtifactName.tryPom j).2 = false ↔ descriptorNameMissing j := by
  refine ⟨fun h => ?_, artifact_tryPom_miss j⟩
  unfold GetArtifactName.tryPom at h
  unfold descriptorNameMissing
  cases hp : j.mvnProject with
  | none => exact Or.inl rfl
  | some p =>
    refine Or.inr ⟨p, rfl, ?_⟩
    simp only [hp] at h
    by_contra hne
    have := (decide_len_pos p.Name).2 hne
    rw [this] at h
    exact Bool.noConfusion h

theorem artifact_tryManifest_miss (c : Consts) (j : jarFile) (h : manifestNameMissing c j) :
    (GetArtifactName.tryManifest c j).2 = false := by
  unfold GetArtifactName.tryManifest
  rcases h with h | ⟨v, hv, hn⟩
  · simp [h]
  · simp [hv, hn, len]

theorem artifact_tryManifest_miss_iff (c : Consts) (j : jarFile) :
    (GetArtifactName.tryManifest c j).2 = false ↔ manifestNameMissing c j := by
  refine ⟨fun h => ?_, artifact_tryManifest_miss c j⟩
  unfold GetArtifactName.tryManifest at h
  unfold manifestNameMissing
  cases hv : j.manifests.lookup c.AppNameField with
  | none => exact Or.inl rfl
  | some v =>
    refine Or.inr ⟨v, rfl, ?_⟩
    simp only [hv] at h
    by_contra hne
    have := (decide_len_pos (TrimSpace v)).2 hne
    rw [this] at h
    exact Bool.noConfusion h

theorem GetArtifactName_err (c : Consts) (j : jarFile) : (GetArtifactName c j).2 = none := by
  unfold GetArtifactName
  dsimp only
  split <;> rfl

/-- C6: `GetArtifactName` follows the order descriptor name, manifest
application name, file name.  The error is always nil; the result is the
descriptor's `Name` when the descriptor is present and `Name` is not
empty; otherwise the trimmed `manifests[AppNameField]` when that key is
present with a non-empty trimmed value; otherwise the base name of
`remoteLocation` with the extension of `remoteLocation` removed.  In
particular this last value is returned for an absent descriptor and an
empty manifest.  For a location that does not end in a separator the
extension removed is the extension of the base name itself. -/
theorem GetArtifactName_order (c : Consts) (j : jarFile) :
    (GetArtifactName c j).2 = none ∧
    (∀ p, j.mvnProject = some p → p.Name ≠ "" → (GetArtifactName c j).1 = p.Name) ∧
    (descriptorNameMissing j →
      ∀ v, j.manifests.lookup c.AppNameField = some v → TrimSpace v ≠ "" →
        (GetArtifactName c j).1 = TrimSpace v) ∧
    (descriptorNameMissing j → manifestNameMissing c j →
      (GetArtifactName c j).1 = TrimSuffix (Base j.remoteLocation) (Ext j.remoteLocation)) ∧
    (j.mvnProject = none → j.manifests = [] →
      GetArtifactName c j =
        (TrimSuffix (Base j.remoteLocation) (Ext j.remoteLocation), none)) ∧
    (∀ ch, j.remoteLocation.data.getLast? = some ch → isPathSeparator ch = false →
      Ext j.remoteLocation = Ext (Base j.remoteLocation)) := by
  have herr : (GetArtifactName c j).2 = none := GetArtifactName_err c j
  have hlast : descriptorNameMissing j → manifestNameMissing c j →
      (GetArtifactName c j).1 = TrimSuffix (Base j.remoteLocation) (Ext j.remoteLocation) := by
    intro hd hm
    have h1 := artifact_tryPom_miss j hd
    have h2 := artifact_tryManifest_miss c j hm
    simp [GetArtifactName, tryFuncs.try, h1, h2, GetArtifactName.tryFilename]
  refine ⟨herr, ?_, ?_, hlast, ?_,
    fun ch h1 h2 => (Ext_Base j.remoteLocation ch h1 h2).symm⟩
  · intro p hp hn
    have hf : (GetArtifactName.tryPom j).2 = true := by
      simp [GetArtifactName.tryPom, hp, (len_pos_iff p.Name).2 hn]
    have hv : (GetArtifactName.tryPom j).1 = p.Name := by
      simp [GetArtifactName.tryPom, hp]
    simp [GetArtifactName, tryFuncs.try, hf, hv]
  · intro hd v hv hn
    have h1 := artifact_tryPom_miss j hd
    have hf : (GetArtifactName.tryManifest c j).2 = true := by
      simp [GetArtifactName.tryManifest, hv, (len_pos_iff (TrimSpace v)).2 hn]
    have hval : (GetArtifactName.tryManifest c j).1 = TrimSpace v := by
      simp [GetArtifactName.tryManifest, hv]
    simp [GetArtifactName, tryFuncs.try, h1, hf, hval]
  · intro hp hm
    have := hlast (Or.inl hp) (Or.inl (by rw [hm]; rfl))
    exact Prod.ext this herr

/-- C6 at an archive without descriptor and with an empty manifest: the
name is the file name without `.jar`. -/
theorem GetArtifactName_order_witness :
    GetArtifactName stdConsts (emptyJar "/opt/apps/orders-service.jar") =
      ("orders-service", none) :=
  (GetArtifactName_order stdConsts (emptyJar "/opt/apps/orders-service.jar")).2.2.2.2.1 rfl rfl

/-- C7, refuted as stated: for an archive whose file name is just the
extension `.jar`, without descriptor and with an empty manifest, the
resolved artifact name is the empty string. -/
theorem GetArtifactName_empty_name :
    GetArtifactName stdConsts (emptyJar "/opt/apps/.jar") = ("", none) := by
  decide

/-- C7, amended: `GetArtifactName` always returns a nil error and its probe
chain always reports found, because the file-name probe does; the returned
name is the empty string exactly when the descriptor offers no name, the
manifest offers no application name, and the base name of `remoteLocation`
with the extension removed is empty. -/
theorem GetArtifactName_always_found (c : Consts) (j : jarFile) :
    (GetArtifactName c j).2 = none ∧
    (GetArtifactName.tryFilename j).2 = true ∧
    (tryFuncs.try "" [GetArtifactName.tryPom, GetArtifactName.tryManifest c,
      GetArtifactName.tryFilename] j).2 = true ∧
    ((GetArtifactName c j).1 = "" ↔
      descriptorNameMissing j ∧ manifestNameMissing c j ∧
        TrimSuffix (Base j.remoteLocation) (Ext j.remoteLocation) = "") := by
  have herr : (GetArtifactName c j).2 = none := GetArtifactName_err c j
  refine ⟨herr, rfl, ?_, ?_⟩
  · by_cases h1 : (GetArtifactName.tryPom j).2 = true
    · simp [tryFuncs.try, h1]
    · have h1f : (GetArtifactName.tryPom j).2 = false := by simpa using h1
      by_cases h2 : (GetArtifactName.tryManifest c j).2 = true
      · simp [tryFuncs.try, h1f, h2]
      · have h2f : (GetArtifactName.tryManifest c j).2 = false := by simpa using h2
        simp [tryFuncs.try, h1f, h2f, GetArtifactName.tryFilename]
  · rw [← artifact_tryPom_miss_iff, ← artifact_tryManifest_miss_iff]
    by_cases h1 : (GetArtifactName.tryPom j).2 = true
    · have hne : (GetArtifactName.tryPom j).1 ≠ "" := by
        unfold GetArtifactName.tryPom at h1 ⊢
        cases hp : j.mvnProject with
        | none => simp [hp] at h1
        | some p =>
          simp only [hp] at h1 ⊢
          exact (decide_len_pos p.Name).1 h1
      simp [GetArtifactName, tryFuncs.try, h1, hne]
    · have h1f : (GetArtifactName.tryPom j).2 = false := by simpa using h1
      by_cases h2 : (GetArtifactName.tryManifest c j).2 = true
      · have hne : (GetArtifactName.tryManifest c j).1 ≠ "" := by
          unfold GetArtifactName.tryManifest at h2 ⊢
          cases hv : j.manifests.lookup c.AppNameField with
          | none => simp [hv] at h2
          | some v =>
            simp only [hv] at h2 ⊢
            exact (decide_len_pos (TrimSpace v)).1 h2
        simp [GetArtifactName, tryFuncs.try, h1f, h2, hne]
      · have h2f : (GetArtifactName.tryManifest c j).2 = false := by simpa using h2
        simp [GetArtifactName, tryFuncs.try, h1f, h2f, GetArtifactName.tryFilename]

/-! ## Properties of `GetAppName` and `GetAppPort` -/

theorem GetAppPort_err (x : Lookups) (j : jarFile) (process : JavaProcess) :
    (GetAppPort x j process).2 = none := by
  unfold GetAppPort
  dsimp only
  split <;> rfl

theorem port_yaml_cons_skip (x : Lookups) (e : String × String)
    (rest : List (String × String)) (he : yamlPortSkips x e) :
    GetAppPort.tryAppYamlLoop x (e :: rest) = GetAppPort.tryAppYamlLoop x rest := by
  obtain ⟨f, text⟩ := e
  rw [GetAppPort.tryAppYamlLoop]
  rcases he with hy | ⟨h1, h2⟩
  · simp only [] at hy
    simp only [hy, Bool.false_eq_true, if_false]
  · simp only [ApplicationPortKey] at *
    simp only [h1, h2]
    split <;> rfl

theorem port_yaml_skip (x : Lookups) (pre rest : List (String × String))
    (h : ∀ e ∈ pre, yamlPortSkips x e) :
    GetAppPort.tryAppYamlLoop x (pre ++ rest) = GetAppPort.tryAppYamlLoop x rest := by
  induction pre with
  | nil => rfl
  | cons e pre ih =>
    rw [List.cons_append, port_yaml_cons_skip x e _ (h e (List.mem_cons_self _ _))]
    exact ih (fun e he => h e (List.mem_cons_of_mem _ he))

theorem port_props_cons_skip (x : Lookups) (e : String × String)
    (rest : List (String × String)) (he : propsPortSkips x e) :
    GetAppPort.tryAppPropsLoop x (e :: rest) = GetAppPort.tryAppPropsLoop x rest := by
  obtain ⟨f, text⟩ := e
  rw [GetAppPort.tryAppPropsLoop]
  rcases he with hy | h1
  · simp only [] at hy
    simp only [hy, Bool.false_eq_true, if_false]
  · simp only [ApplicationPortKey] at *
    simp only [h1]
    split <;> rfl

theorem port_props_skip (x : Lookups) (pre rest : List (String × String))
    (h : ∀ e ∈ pre, propsPortSkips x e) :
    GetAppPort.tryAppPropsLoop x (pre ++ rest) = GetAppPort.tryAppPropsLoop x rest := by
  induction pre with
  | nil => rfl
  | cons e pre ih =>
    rw [List.cons_append, port_props_cons_skip x e _ (h e (List.mem_cons_self _ _))]
    exact ih (fun e he => h e (List.mem_cons_of_mem _ he))

theorem port_props_all_skip (x : Lookups) (cfgs : List (String × String))
    (h : ∀ e ∈ cfgs, propsPortSkips x e) :
    GetAppPort.tryAppPropsLoop x cfgs = (0, false) := by
  have := port_props_skip x cfgs [] h
  rw [List.append_nil] at this
  rw [this]; rfl

theorem port_optionsLoop_miss (m : List (String × String))
    (h : ∀ e ∈ m, e.1 ≠ "-Dserver.port" ∧ e.1 ≠ "--server.port") :
    GetAppPort.tryOptionsLoop m = (0, false) := by
  induction m with
  | nil => rfl
  | cons e m ih =>
    obtain ⟨k, v⟩ := e
    have he := h (k, v) (List.mem_cons_self _ _)
    have hD : ("-D" ++ ApplicationPortKey) = "-Dserver.port" := by decide
    have hM : ("--" ++ ApplicationPortKey) = "--server.port" := by decide
    unfold GetAppPort.tryOptionsLoop
    rw [hD, hM]
    simp only [he.1, he.2, or_self, if_false]
    exact ih (fun e he => h e (List.mem_cons_of_mem _ he))

theorem port_options_miss (x : Lookups) (process : JavaProcess) (j : jarFile)
    (h : optionsSupplyNoPort x process) : GetAppPort.tryOptions x process j = (0, false) := by
  unfold GetAppPort.tryOptions
  rcases h with ⟨e, he⟩ | ⟨options, ho, hk⟩
  · rw [he]
  · rw [ho]; exact port_optionsLoop_miss _ hk

theorem noProcessOptions_noPort (x : Lookups) (process : JavaProcess)
    (h : noProcessOptions x process) : optionsSupplyNoPort x process := by
  rcases h with h | ⟨h1, h2⟩
  · exact Or.inl h
  · refine Or.inr ⟨[], h1, ?_⟩
    have hj : Join [] "\n" = "" := rfl
    rw [hj, h2]
    intro e he
    exact absurd he (List.not_mem_nil e)

theorem name_options_miss (x : Lookups) (process : JavaProcess) (j : jarFile)
    (h : noProcessOptions x process) : GetAppName.tryOptions x process j = ("", false) := by
  unfold GetAppName.tryOptions
  rcases h with ⟨e, he⟩ | ⟨h1, h2⟩
  · rw [he]
  · have hj : Join [] "\n" = "" := rfl
    rw [h1]
    simp only [hj, h2]
    rfl

/-- C8: with no application-config files and no process options,
`GetAppName` returns `("", nil)` and `GetAppPort` returns `(8080, nil)`,
whatever the manifest, descriptor and dependencies of the snapshot are. -/
theorem no_config_no_options (x : Lookups) (j : jarFile) (process : JavaProcess)
    (hcfg : j.applicationConfigurations = []) (hopt : noProcessOptions x process) :
    GetAppName x j process = ("", none) ∧ GetAppPort x j process = (8080, none) := by
  have h1 := name_options_miss x process j hopt
  have h2 := port_options_miss x process j (noProcessOptions_noPort x process hopt)
  constructor
  · simp [GetAppName, tryFuncs.try, h1, GetAppName.tryAppProps, GetAppName.tryAppYaml,
      hcfg, GetAppName.tryAppPropsLoop, GetAppName.tryAppYamlLoop]
  · simp [GetAppPort, tryFuncs.try, h2, GetAppPort.tryAppProps, GetAppPort.tryAppYaml,
      hcfg, GetAppPort.tryAppPropsLoop, GetAppPort.tryAppYamlLoop, GetAppPort.defaultPort]

/-- C8 at a snapshot with a main class, a starter descriptor and a
dependency, but no config files, and a process without options. -/
theorem no_config_no_options_witness :
    GetAppName demoLookups { emptyJar "app.jar" with
        manifests := [("Main-Class", "com.example.Main")],
        mvnProject := some (starterPom "2.7.0"),
        dependencies := ["BOOT-INF/lib/spring-boot-2.7.0.jar"] } (processWith []) = ("", none) ∧
    GetAppPort demoLookups { emptyJar "app.jar" with
        manifests := [("Main-Class", "com.example.Main")],
        mvnProject := some (starterPom "2.7.0"),
        dependencies := ["BOOT-INF/lib/spring-boot-2.7.0.jar"] } (processWith []) = (8080, none) :=
  no_config_no_options demoLookups _ (processWith []) rfl (Or.inr ⟨rfl, by decide⟩)

theorem port_yaml_non_numeric (x : Lookups) (cfgs : List (String × String)) (v : String)
    (hv : yamlPortStringValue x cfgs v) (hn : Atoi (TrimSpace v) = none) :
    GetAppPort.tryAppYamlLoop x cfgs = (0, false) := by
  obtain ⟨pre, f, text, post, hc, hpre, hy, h1, h2⟩ := hv
  rw [hc, port_yaml_skip x pre _ hpre, GetAppPort.tryAppYamlLoop]
  simp only [ApplicationPortKey, hy, if_true, h1, h2, parsePort, hn]

theorem port_props_value (x : Lookups) (cfgs : List (String × String)) (w : String)
    (hw : propsPortValue x cfgs w) : GetAppPort.tryAppPropsLoop x cfgs = parsePort w := by
  obtain ⟨pre, f, text, post, hc, hpre, hy, h1⟩ := hw
  rw [hc, port_props_skip x pre _ hpre, GetAppPort.tryAppPropsLoop]
  simp only [ApplicationPortKey, hy, if_true, h1]

/-- When the option probe and the YAML probe report not found, the
properties probe decides, with 8080 as the fallback. -/
theorem GetAppPort_of_props (x : Lookups) (j : jarFile) (process : JavaProcess)
    (ho : (GetAppPort.tryOptions x process j).2 = false)
    (hy : (GetAppPort.tryAppYaml x j).2 = false) :
    GetAppPort x j process =
      (if (GetAppPort.tryAppProps x j).2 then (GetAppPort.tryAppProps x j).1 else 8080, none) := by
  by_cases hp : (GetAppPort.tryAppProps x j).2 = true
  · simp [GetAppPort, tryFuncs.try, ho, hy, hp]
  · have hpf : (GetAppPort.tryAppProps x j).2 = false := by simpa using hp
    simp [GetAppPort, tryFuncs.try, ho, hy, hpf, GetAppPort.defaultPort]

/-- C9: a port value that is present but not numeric counts as not found.
`GetAppPort` always returns a nil error.  When the value the YAML probe
looks up as a string fails `Atoi`, the YAML probe reports not found and
the result is that of the chain without the YAML probe; if moreover the
option probe reports not found, the result is the integer parsed from the
value the properties probe looks up when that parses, and 8080 when it
does not parse or when no properties file holds the key.  Likewise, once
the option and YAML probes report not found, a properties value that is
not numeric yields 8080. -/
theorem GetAppPort_non_numeric_not_found (x : Lookups) (j : jarFile) (process : JavaProcess) :
    (GetAppPort x j process).2 = none ∧
    (∀ v, yamlPortStringValue x j.applicationConfigurations v → Atoi (TrimSpace v) = none →
      GetAppPort.tryAppYaml x j = (0, false) ∧
      GetAppPort x j process = GetAppPort.withoutYaml x j process ∧
      ((GetAppPort.tryOptions x process j).2 = false →
        (∀ w n, propsPortValue x j.applicationConfigurations w →
          Atoi (TrimSpace w) = some n → GetAppPort x j process = (n, none)) ∧
        (∀ w, propsPortValue x j.applicationConfigurations w →
          Atoi (TrimSpace w) = none → GetAppPort x j process = (8080, none)) ∧
        ((∀ e ∈ j.applicationConfigurations, propsPortSkips x e) →
          GetAppPort x j process = (8080, none)))) ∧
    (∀ w, (GetAppPort.tryOptions x process j).2 = false →
      (GetAppPort.tryAppYaml x j).2 = false →
      propsPortValue x j.applicationConfigurations w → Atoi (TrimSpace w) = none →
      GetAppPort x j process = (8080, none)) := by
  refine ⟨GetAppPort_err x j process, ?_, ?_⟩
  · intro v hv hn
    have hy : GetAppPort.tryAppYaml x j = (0, false) :=
      port_yaml_non_numeric x j.applicationConfigurations v hv hn
    have hy2 : (GetAppPort.tryAppYaml x j).2 = false := by rw [hy]
    refine ⟨hy, ?_, ?_⟩
    · by_cases ho : (GetAppPort.tryOptions x process j).2 = true
      · simp [GetAppPort, GetAppPort.withoutYaml, tryFuncs.try, ho]
      · have hof : (GetAppPort.tryOptions x process j).2 = false := by simpa using ho
        simp [GetAppPort, GetAppPort.withoutYaml, tryFuncs.try, hof, hy2]
    · intro ho
      have hg := GetAppPort_of_props x j process ho hy2
      refine ⟨?_, ?_, ?_⟩
      · intro w n hw hp
        have := port_props_value x j.applicationConfigurations w hw
        rw [hg]
        simp [GetAppPort.tryAppProps, this, parsePort, hp]
      · intro w hw hp
        have := port_props_value x j.applicationConfigurations w hw
        rw [hg]
        simp [GetAppPort.tryAppProps, this, parsePort, hp]
      · intro hs
        have := port_props_all_skip x j.applicationConfigurations hs
        rw [hg]
        simp [GetAppPort.tryAppProps, this]
  · intro w ho hy hw hp
    have := port_props_value x j.applicationConfigurations w hw
    rw [GetAppPort_of_props x j process ho hy]
    simp [GetAppPort.tryAppProps, this, parsePort, hp]

/-- C9 at a snapshot whose YAML file holds the word `auto` for the port and
whose properties file holds 9000: the result is 9000. -/
theorem GetAppPort_non_numeric_not_found_witness :
    GetAppPort demoLookups { emptyJar "app.jar" with
      applicationConfigurations :=
        [("BOOT-INF/classes/application.yml", "server.port: auto"),
         ("BOOT-INF/classes/application.properties", "server.port=9000")] }
      (processWith []) = (9000, none) :=
  ((GetAppPort_non_numeric_not_found demoLookups { emptyJar "app.jar" with
      applicationConfigurations :=
        [("BOOT-INF/classes/application.yml", "server.port: auto"),
         ("BOOT-INF/classes/application.properties", "server.port=9000")] }
      (processWith [])).2.1 "auto"
      ⟨[], "BOOT-INF/classes/application.yml", "server.port: auto",
        [("BOOT-INF/classes/application.properties", "server.port=9000")],
        rfl, by simp, by decide, by decide, by decide⟩
      (by decide)).2.2 (by decide) |>.1 "9000" 9000
      ⟨[("BOOT-INF/classes/application.yml", "server.port: auto")],
        "BOOT-INF/classes/application.properties", "server.port=9000", [],
        rfl, by intro e he; simp at he; subst he; exact Or.inl (by decide),
        by decide, by decide⟩
      (by decide)

/-- C10: the YAML application-config outranks the properties one for the
port.  When the process options supply no port and the snapshot has
exactly one YAML application-config file, whose typed integer lookup of
`server.port` yields `p`, `GetAppPort` returns `p` with nil error,
whatever the other files of the snapshot are. -/
theorem GetAppPort_yaml_outranks_properties (x : Lookups) (j : jarFile)
    (process : JavaProcess) (p : Int) (hopt : optionsSupplyNoPort x process)
    (hy : onlyYamlHasPort x j.applicationConfigurations p) :
    GetAppPort x j process = (p, none) := by
  obtain ⟨pre, f, text, post, hc, hothers, hf, hp⟩ := hy
  have ho := port_options_miss x process j hopt
  have hpre : ∀ e ∈ pre, yamlPortSkips x e := fun e he =>
    Or.inl (hothers e (List.mem_append_left _ he))
  have hyaml : GetAppPort.tryAppYaml x j = (p, true) := by
    unfold GetAppPort.tryAppYaml
    rw [hc, port_yaml_skip x pre _ hpre, GetAppPort.tryAppYamlLoop]
    simp only [ApplicationPortKey, hf, if_true, hp]
  simp [GetAppPort, tryFuncs.try, ho, hyaml]

/-- C10 at a snapshot with `application.yml` declaring 9090 and
`application.properties` declaring 9000, the properties file visited
first: the result is 9090. -/
theorem GetAppPort_yaml_outranks_properties_witness :
    GetAppPort demoLookups { emptyJar "app.jar" with
      applicationConfigurations :=
        [("BOOT-INF/classes/application.properties", "server.port=9000"),
         ("BOOT-INF/classes/application.yml", "server.port: 9090")] }
      (processWith ["-Xmx512m"]) = (9090, none) :=
  GetAppPort_yaml_outranks_properties demoLookups _ (processWith ["-Xmx512m"]) 9090
    (Or.inr ⟨["-Xmx512m"], rfl, by decide⟩)
    ⟨[("BOOT-INF/classes/application.properties", "server.port=9000")],
      "BOOT-INF/classes/application.yml", "server.port: 9090", [],
      rfl, by decide, by decide, by decide⟩

/-! ## Properties of `GetAppName` -/

theorem GetAppName_err (x : Lookups) (j : jarFile) (process : JavaProcess) :
    (GetAppName x j process).2 = none := by
  unfold GetAppName
  dsimp only
  split <;> rfl

theorem name_props_cons_skip (x : Lookups) (e : String × String)
    (rest : List (String × String)) (he : propsNameSkips x e) :
    GetAppName.tryAppPropsLoop x (e :: rest) = GetAppName.tryAppPropsLoop x rest := by
  obtain ⟨f, text⟩ := e
  rw [GetAppName.tryAppPropsLoop]
  rcases he with hy | h1
  · simp only [] at hy
    simp only [hy, Bool.false_eq_true, if_false]
  · simp only [ApplicationNameKey] at *
    simp only [h1]
    split <;> rfl

theorem name_props_skip (x : Lookups) (pre rest : List (String × String))
    (h : ∀ e ∈ pre, propsNameSkips x e) :
    GetAppName.tryAppPropsLoop x (pre ++ rest) = GetAppName.tryAppPropsLoop x rest := by
  induction pre with
  | nil => rfl
  | cons e pre ih =>
    rw [List.cons_append, name_props_cons_skip x e _ (h e (List.mem_cons_self _ _))]
    exact ih (fun e he => h e (List.mem_cons_of_mem _ he))

/-- The properties probe of `GetAppName` returns at the first file in which
the key is found, with the trimmed value and the flag "not blank". -/
theorem name_props_value (x : Lookups) (cfgs : List (String × String)) (v : String)
    (hv : propsNameValue x cfgs v) :
    GetAppName.tryAppPropsLoop x cfgs = (TrimSpace v, decide (len (TrimSpace v) > 0)) := by
  obtain ⟨pre, f, text, post, hc, hpre, hy, h1⟩ := hv
  rw [hc, name_props_skip x pre _ hpre, GetAppName.tryAppPropsLoop]
  simp only [ApplicationNameKey, hy, if_true, h1]

theorem name_optionsLoop_miss (m : List (String × String))
    (h : ∀ e ∈ m, TrimSpace e.1 = "-Dspring.application.name" → e.2 = "") :
    GetAppName.tryOptionsLoop m = ("", false) := by
  induction m with
  | nil => rfl
  | cons e m ih =>
    obtain ⟨k, v⟩ := e
    have he := h (k, v) (List.mem_cons_self _ _)
    have hD : ("-D" ++ ApplicationNameKey) = "-Dspring.application.name" := by decide
    rw [GetAppName.tryOptionsLoop, hD]
    by_cases hk : TrimSpace k = "-Dspring.application.name"
    · have hv : v = "" := he hk
      subst hv
      simp only [hk, if_true]
      rfl
    · simp only [hk, if_false]
      exact ih (fun e he => h e (List.mem_cons_of_mem _ he))

theorem name_options_none (x : Lookups) (process : JavaProcess) (j : jarFile)
    (h : optionsSupplyNoName x process) :
    GetAppName.tryOptions x process j = ("", false) := by
  unfold GetAppName.tryOptions
  rcases h with ⟨e, he⟩ | ⟨options, ho, hk⟩
  · rw [he]
  · rw [ho]; exact name_optionsLoop_miss _ hk

/-- C11: the properties application-config outranks the YAML one for the
name.  When the process options supply no application name and the
snapshot has exactly one `.properties` application-config file, whose
lookup of `spring.application.name` yields `v` with a non-empty trim,
`GetAppName` returns the trimmed `v` with nil error, whatever the YAML
files of the snapshot are. -/
theorem GetAppName_properties_outrank_yaml (x : Lookups) (j : jarFile)
    (process : JavaProcess) (v : String) (hopt : optionsSupplyNoName x process)
    (hp : onlyPropertiesHasName x j.applicationConfigurations v)
    (hne : TrimSpace v ≠ "") :
    GetAppName x j process = (TrimSpace v, none) := by
  obtain ⟨pre, f, text, post, hc, hothers, hf, hl⟩ := hp
  have ho := name_options_none x process j hopt
  have hval : propsNameValue x j.applicationConfigurations v :=
    ⟨pre, f, text, post, hc,
      fun e he => Or.inl (hothers e (List.mem_append_left _ he)), hf, hl⟩
  have hprops : GetAppName.tryAppProps x j = (TrimSpace v, true) := by
    unfold GetAppName.tryAppProps
    rw [name_props_value x _ v hval, (decide_len_pos (TrimSpace v)).2 hne]
  simp [GetAppName, tryFuncs.try, ho, hprops]

/-- C11 at a snapshot with `application.yml` naming `from-yaml` and
`application.properties` naming `orders-service`, the YAML file visited
first: the result is `orders-service`. -/
theorem GetAppName_properties_outrank_yaml_witness :
    GetAppName demoLookups { emptyJar "app.jar" with
      applicationConfigurations :=
        [("BOOT-INF/classes/application.yml", "spring.application.name: from-yaml"),
         ("BOOT-INF/classes/application.properties",
           "spring.application.name=orders-service")] }
      (processWith ["-Xmx512m"]) = ("orders-service", none) :=
  GetAppName_properties_outrank_yaml demoLookups _ (processWith ["-Xmx512m"])
    "orders-service"
    (Or.inr ⟨["-Xmx512m"], rfl, by decide⟩)
    ⟨[("BOOT-INF/classes/application.yml", "spring.application.name: from-yaml")],
      "BOOT-INF/classes/application.properties", "spring.application.name=orders-service",
      [], rfl, by decide, by decide, by decide⟩
    (by decide)

theorem firstNonBlank_skip (x : Lookups) (pre rest : List (String × String))
    (h : ∀ e ∈ pre, propsNameSkips x e) :
    firstNonBlankPropsName x (pre ++ rest) = firstNonBlankPropsName x rest := by
  induction pre with
  | nil => rfl
  | cons e pre ih =>
    obtain ⟨f, text⟩ := e
    have he := h (f, text) (List.mem_cons_self _ _)
    rw [List.cons_append, firstNonBlankPropsName]
    have ih2 := ih (fun e he => h e (List.mem_cons_of_mem _ he))
    rcases he with hy | h1
    · simp only [] at hy
      simp only [hy, Bool.false_eq_true, if_false]
      exact ih2
    · simp only [] at h1
      simp only [h1]
      split <;> exact ih2

/-- C12, refuted as stated: the first `.properties` file holds the key with
an empty value and the second one names `orders-service`.  The first
non-blank match is `orders-service`, yet the properties probe reports not
found and `GetAppName` returns the empty name. -/
theorem GetAppName_blank_value_not_skipped :
    firstNonBlankPropsName demoLookups
      [("BOOT-INF/classes/application.properties", "spring.application.name="),
       ("BOOT-INF/classes/config/application.properties",
         "spring.application.name=orders-service")] = some "orders-service" ∧
    GetAppName.tryAppProps demoLookups { emptyJar "app.jar" with
      applicationConfigurations :=
        [("BOOT-INF/classes/application.properties", "spring.application.name="),
         ("BOOT-INF/classes/config/application.properties",
           "spring.application.name=orders-service")] } = ("", false) ∧
    GetAppName demoLookups { emptyJar "app.jar" with
      applicationConfigurations :=
        [("BOOT-INF/classes/application.properties", "spring.application.name="),
         ("BOOT-INF/classes/config/application.properties",
           "spring.application.name=orders-service")] } (processWith []) = ("", none) := by
  decide

/-- C12, amended: within the properties source of `GetAppName` the first
file in scan order in which the key is found decides the probe.  The
probe returns the trimmed value of that file with the flag "not blank".
If no process option supplies the name and the value is not blank, the
result is that trimmed value, which is then also the first non-blank
match; if the value is blank the probe reports not found without
consulting later files and the YAML probe resolves the name. -/
theorem GetAppName_first_found_decides (x : Lookups) (j : jarFile) (process : JavaProcess)
    (v : String) (hv : propsNameValue x j.applicationConfigurations v) :
    GetAppName.tryAppProps x j = (TrimSpace v, decide (len (TrimSpace v) > 0)) ∧
    (optionsSupplyNoName x process → TrimSpace v ≠ "" →
      GetAppName x j process = (TrimSpace v, none) ∧
      firstNonBlankPropsName x j.applicationConfigurations = some (TrimSpace v)) ∧
    (optionsSupplyNoName x process → TrimSpace v = "" →
      GetAppName.tryAppProps x j = ("", false) ∧
      GetAppName x j process =
        (if (GetAppName.tryAppYaml x j).2 then ((GetAppName.tryAppYaml x j).1, none)
          else ("", none))) := by
  have hprobe : GetAppName.tryAppProps x j =
      (TrimSpace v, decide (len (TrimSpace v) > 0)) :=
    name_props_value x j.applicationConfigurations v hv
  refine ⟨hprobe, ?_, ?_⟩
  · intro hopt hne
    have ho := name_options_none x process j hopt
    have hflag := (decide_len_pos (TrimSpace v)).2 hne
    constructor
    · simp [GetAppName, tryFuncs.try, ho, hprobe, hflag]
    · obtain ⟨pre, f, text, post, hc, hpre, hy, h1⟩ := hv
      rw [hc, firstNonBlank_skip x pre _ hpre, firstNonBlankPropsName]
      simp only [hy, if_true, h1, ne_eq, hne, not_false_eq_true]
  · intro hopt hblank
    have ho := name_options_none x process j hopt
    have hp2 : GetAppName.tryAppProps x j = ("", false) := by
      rw [hprobe, hblank]; rfl
    refine ⟨hp2, ?_⟩
    by_cases hy : (GetAppName.tryAppYaml x j).2 = true
    · simp [GetAppName, tryFuncs.try, ho, hp2, hy]
    · have hyf : (GetAppName.tryAppYaml x j).2 = false := by simpa using hy
      simp [GetAppName, tryFuncs.try, ho, hp2, hyf]

/-- C12, amended, at a snapshot whose first properties file lacks the key
and whose second one names `orders-service`. -/
theorem GetAppName_first_found_decides_witness :
    GetAppName.tryAppProps demoLookups { emptyJar "app.jar" with
      applicationConfigurations :=
        [("BOOT-INF/classes/application.properties", "server.port=9000"),
         ("BOOT-INF/classes/config/application.properties",
           "spring.application.name= orders-service ")] } = ("orders-service", true) :=
  (GetAppName_first_found_decides demoLookups { emptyJar "app.jar" with
      applicationConfigurations :=
        [("BOOT-INF/classes/application.properties", "server.port=9000"),
         ("BOOT-INF/classes/config/application.properties",
           "spring.application.name= orders-service ")] } (processWith [])
      " orders-service "
      ⟨[("BOOT-INF/classes/application.properties", "server.port=9000")],
        "BOOT-INF/classes/config/application.properties",
        "spring.application.name= orders-service ", [], rfl,
        by intro e he; simp at he; subst he; exact Or.inr (by decide),
        by decide, by decide⟩).1

/-- C13: option-flag matching differs between name and port.  If no parsed
option key trims to `-Dspring.application.name`, as when the name is given
only as `--spring.application.name`, the option probe of `GetAppName`
reports not found and the name comes from the config files alone.  If the
first parsed option with key `-Dserver.port` or `--server.port` has a value
whose trim parses as `p`, `GetAppPort` returns `p` whatever the config
files hold. -/
theorem option_flag_asymmetry (x : Lookups) (j : jarFile) (process : JavaProcess)
    (options : List String) (ho : process.GetJvmOptions = .ok options) :
    ((∀ e ∈ x.ParseProperties (Join options "\n"),
        TrimSpace e.1 ≠ "-Dspring.application.name") →
      GetAppName.tryOptions x process j = ("", false) ∧
      GetAppName x j process = GetAppName.fromConfigFiles x j) ∧
    (∀ v p, optionsPortValue (x.ParseProperties (Join options "\n")) v →
      Atoi (TrimSpace v) = some p → GetAppPort x j process = (p, none)) := by
  constructor
  · intro hk
    have hmiss : GetAppName.tryOptions x process j = ("", false) :=
      name_options_none x process j
        (Or.inr ⟨options, ho, fun e he hm => absurd hm (hk e he)⟩)
    refine ⟨hmiss, ?_⟩
    simp [GetAppName, GetAppName.fromConfigFiles, tryFuncs.try, hmiss]
  · intro v p hv hp
    obtain ⟨pre, k, post, hm, hpre, hkey⟩ := hv
    have hloop : ∀ (l : List (String × String)),
        (∀ e ∈ l, e.1 ≠ "-Dserver.port" ∧ e.1 ≠ "--server.port") →
        GetAppPort.tryOptionsLoop (l ++ (k, v) :: post) = (p, true) := by
      intro l
      have hD : ("-D" ++ ApplicationPortKey) = "-Dserver.port" := by decide
      have hM : ("--" ++ ApplicationPortKey) = "--server.port" := by decide
      induction l with
      | nil =>
        intro _
        rw [List.nil_append, GetAppPort.tryOptionsLoop, hD, hM]
        simp only [hkey, if_true, parsePort, hp]
      | cons e l ih =>
        intro hl
        obtain ⟨k2, v2⟩ := e
        have he := hl (k2, v2) (List.mem_cons_self _ _)
        rw [List.cons_append, GetAppPort.tryOptionsLoop, hD, hM]
        simp only [he.1, he.2, or_self, if_false]
        exact ih (fun e he => hl e (List.mem_cons_of_mem _ he))
    have hopt : GetAppPort.tryOptions x process j = (p, true) := by
      unfold GetAppPort.tryOptions
      rw [ho]
      simp only [hm]
      exact hloop pre hpre
    simp [GetAppPort, tryFuncs.try, hopt]

/-- C13 at a process started with `--spring.application.name=cli-name` and
`--server.port=9001` over an archive whose properties file names
`orders-service` and port 9000: the name ignores the option, the port
follows it. -/
theorem option_flag_asymmetry_witness :
    GetAppName demoLookups { emptyJar "app.jar" with
      applicationConfigurations :=
        [("BOOT-INF/classes/application.properties",
          "spring.application.name=orders-service\nserver.port=9000")] }
      (processWith ["--spring.application.name=cli-name", "--server.port=9001"]) =
      ("orders-service", none) ∧
    GetAppPort demoLookups { emptyJar "app.jar" with
      applicationConfigurations :=
        [("BOOT-INF/classes/application.properties",
          "spring.application.name=orders-service\nserver.port=9000")] }
      (processWith ["--spring.application.name=cli-name", "--server.port=9001"]) =
      (9001, none) :=
  ⟨((option_flag_asymmetry demoLookups { emptyJar "app.jar" with
      applicationConfigurations :=
        [("BOOT-INF/classes/application.properties",
          "spring.application.name=orders-service\nserver.port=9000")] }
      (processWith ["--spring.application.name=cli-name", "--server.port=9001"])
      ["--spring.application.name=cli-name", "--server.port=9001"] rfl).1
      (by decide)).2.trans (by decide),
   (option_flag_asymmetry demoLookups { emptyJar "app.jar" with
      applicationConfigurations :=
        [("BOOT-INF/classes/application.properties",
          "spring.application.name=orders-service\nserver.port=9000")] }
      (processWith ["--spring.application.name=cli-name", "--server.port=9001"])
      ["--spring.application.name=cli-name", "--server.port=9001"] rfl).2 "9001" 9001
      ⟨[("--spring.application.name", "cli-name")], "--server.port", [],
        by decide, by decide, Or.inr rfl⟩
      (by decide)⟩

/-! ## Properties of `GetBuildJdkVersion` and `GetSpringBootVersion` -/

theorem GetBuildJdkVersion_err (c : Consts) (j : jarFile) :
    (GetBuildJdkVersion c j).2 = none := by
  unfold GetBuildJdkVersion
  dsimp only
  split <;> rfl

theorem GetSpringBootVersion_err (c : Consts) (j : jarFile) :
    (GetSpringBootVersion c j).2 = none := by
  unfold GetSpringBootVersion
  dsimp only
  split <;> rfl

theorem jdk_try2x_some (c : Consts) (j : jarFile) (v : String)
    (h : manifestNonBlank j c.JdkVersionField = some v) :
    GetBuildJdkVersion.try2x c j = (v, true) := by
  unfold manifestNonBlank at h
  unfold GetBuildJdkVersion.try2x
  cases hl : j.manifests.lookup c.JdkVersionField with
  | none => simp [hl] at h
  | some value =>
    simp only [hl] at h ⊢
    by_cases hne : TrimSpace value ≠ ""
    · rw [if_pos hne] at h
      rw [(decide_len_pos (TrimSpace value)).2 hne, Option.some.inj h]
    · simp [hne] at h

theorem jdk_try2x_none (c : Consts) (j : jarFile)
    (h : manifestNonBlank j c.JdkVersionField = none) :
    (GetBuildJdkVersion.try2x c j).2 = false := by
  unfold manifestNonBlank at h
  unfold GetBuildJdkVersion.try2x
  cases hl : j.manifests.lookup c.JdkVersionField with
  | none => rfl
  | some value =>
    simp only [hl] at h ⊢
    by_cases hne : TrimSpace value ≠ ""
    · simp [hne] at h
    · have he : TrimSpace value = "" := by simpa using hne
      rw [he]; rfl

theorem jdk_try1x_some (c : Consts) (j : jarFile) (v : String)
    (h : manifestNonBlank j c.JdkVersionFieldFor1x = some v) :
    GetBuildJdkVersion.try1x c j = (v, true) := by
  unfold manifestNonBlank at h
  unfold GetBuildJdkVersion.try1x
  cases hl : j.manifests.lookup c.JdkVersionFieldFor1x with
  | none => simp [hl] at h
  | some value =>
    simp only [hl] at h ⊢
    by_cases hne : TrimSpace value ≠ ""
    · rw [if_pos hne] at h
      rw [(decide_len_pos (TrimSpace value)).2 hne, Option.some.inj h]
    · simp [hne] at h

theorem jdk_try1x_none (c : Consts) (j : jarFile)
    (h : manifestNonBlank j c.JdkVersionFieldFor1x = none) :
    (GetBuildJdkVersion.try1x c j).2 = false := by
  unfold manifestNonBlank at h
  unfold GetBuildJdkVersion.try1x
  cases hl : j.manifests.lookup c.JdkVersionFieldFor1x with
  | none => rfl
  | some value =>
    simp only [hl] at h ⊢
    by_cases hne : TrimSpace value ≠ ""
    · simp [hne] at h
    · have he : TrimSpace value = "" := by simpa using hne
      rw [he]; rfl

/-- The descriptor probe of `GetBuildJdkVersion` when `java.version` is
present: its trimmed value, found when not blank. -/
theorem jdk_tryPom_java_version (j : jarFile) (p : MavenProject) (v : String)
    (hp : j.mvnProject = some p) (hv : p.Properties.lookup "java.version" = some v) :
    GetBuildJdkVersion.tryPom j = (TrimSpace v, decide (len (TrimSpace v) > 0)) := by
  unfold GetBuildJdkVersion.tryPom
  rw [hp]
  simp only [JavaVersionPropertyName, GetBuildJdkVersion.tryPomLoop, hv]

/-- C14: `GetBuildJdkVersion` follows the order descriptor properties,
manifest field in its current naming, manifest field in its legacy naming.
The error is always nil.  A non-blank `java.version` of a present
descriptor gives its trimmed value whatever the manifest holds.  When the
descriptor probe finds nothing, a present, non-blank
`manifests[JdkVersionField]` gives its trimmed value whatever
`manifests[JdkVersionFieldFor1x]` is; failing that, a present, non-blank
`manifests[JdkVersionFieldFor1x]` gives its trimmed value; failing that too,
the result is the empty string. -/
theorem GetBuildJdkVersion_order (c : Consts) (j : jarFile) :
    (GetBuildJdkVersion c j).2 = none ∧
    (∀ p v, j.mvnProject = some p → p.Properties.lookup "java.version" = some v →
      TrimSpace v ≠ "" → (GetBuildJdkVersion c j).1 = TrimSpace v) ∧
    ((GetBuildJdkVersion.tryPom j).2 = false →
      ∀ v, manifestNonBlank j c.JdkVersionField = some v →
        (GetBuildJdkVersion c j).1 = v) ∧
    ((GetBuildJdkVersion.tryPom j).2 = false →
      manifestNonBlank j c.JdkVersionField = none →
      ∀ v, manifestNonBlank j c.JdkVersionFieldFor1x = some v →
        (GetBuildJdkVersion c j).1 = v) ∧
    ((GetBuildJdkVersion.tryPom j).2 = false →
      manifestNonBlank j c.JdkVersionField = none →
      manifestNonBlank j c.JdkVersionFieldFor1x = none →
        (GetBuildJdkVersion c j).1 = "") := by
  refine ⟨GetBuildJdkVersion_err c j, ?_, ?_, ?_, ?_⟩
  · intro p v hp hv hne
    have h := jdk_tryPom_java_version j p v hp hv
    rw [(decide_len_pos (TrimSpace v)).2 hne] at h
    simp [GetBuildJdkVersion, tryFuncs.try, h]
  · intro hpom v h2
    have h := jdk_try2x_some c j v h2
    simp [GetBuildJdkVersion, tryFuncs.try, hpom, h]
  · intro hpom h2 v h1
    have h2f := jdk_try2x_none c j h2
    have h := jdk_try1x_some c j v h1
    simp [GetBuildJdkVersion, tryFuncs.try, hpom, h2f, h]
  · intro hpom h2 h1
    have h2f := jdk_try2x_none c j h2
    have h1f := jdk_try1x_none c j h1
    simp [GetBuildJdkVersion, tryFuncs.try, hpom, h2f, h1f]

/-- C14 at a snapshot without descriptor whose manifest holds both JDK
fields: the field in its current naming wins. -/
theorem GetBuildJdkVersion_order_witness :
    (GetBuildJdkVersion stdConsts { emptyJar "app.jar" with
      manifests := [("Build-Jdk", "1.8.0_292"), ("Build-Jdk-Spec", " 17 ")] }).1 = "17" :=
  (GetBuildJdkVersion_order stdConsts { emptyJar "app.jar" with
      manifests := [("Build-Jdk", "1.8.0_292"), ("Build-Jdk-Spec", " 17 ")] }).2.2.1
    (by decide) "17" (by decide)

/-- C15: the lookup keys named compiler-release and compiler-target are
the same string `maven.compiler.target`.  For a descriptor whose properties
hold neither `java.version` nor `maven.compiler.target`, whatever else they
hold, the descriptor probe of `GetBuildJdkVersion` reports not found and
the result is that of the snapshot without descriptor, decided by the
manifest alone. -/
theorem GetBuildJdkVersion_release_key_ignored (c : Consts) (j : jarFile) :
    CompilerReleasePropertyName = "maven.compiler.target" ∧
    CompilerReleasePropertyName = CompilerTargetPropertyName ∧
    (∀ p, j.mvnProject = some p → p.Properties.lookup "java.version" = none →
      p.Properties.lookup "maven.compiler.target" = none →
      GetBuildJdkVersion.tryPom j = ("", false) ∧
      GetBuildJdkVersion c j = GetBuildJdkVersion c { j with mvnProject := none }) := by
  refine ⟨rfl, rfl, ?_⟩
  intro p hp h1 h2
  have hpom : GetBuildJdkVersion.tryPom j = ("", false) := by
    unfold GetBuildJdkVersion.tryPom
    rw [hp]
    simp only [JavaVersionPropertyName, CompilerReleasePropertyName,
      CompilerTargetPropertyName, GetBuildJdkVersion.tryPomLoop, h1, h2]
  have hpom2 : GetBuildJdkVersion.tryPom { j with mvnProject := none } = ("", false) := rfl
  have h2x : GetBuildJdkVersion.try2x c { j with mvnProject := none } =
      GetBuildJdkVersion.try2x c j := rfl
  have h1x : GetBuildJdkVersion.try1x c { j with mvnProject := none } =
      GetBuildJdkVersion.try1x c j := rfl
  refine ⟨hpom, ?_⟩
  simp only [GetBuildJdkVersion, tryFuncs.try, hpom, hpom2, h2x, h1x]

/-- C15 at a descriptor that declares only `maven.compiler.release`: the
descriptor probe reports not found. -/
theorem GetBuildJdkVersion_release_key_ignored_witness :
    GetBuildJdkVersion.tryPom { emptyJar "app.jar" with
      mvnProject := some { starterPom "2.7.0" with
        Properties := [("maven.compiler.release", "17")] },
      manifests := [("Build-Jdk-Spec", "11")] } = ("", false) :=
  ((GetBuildJdkVersion_release_key_ignored stdConsts { emptyJar "app.jar" with
      mvnProject := some { starterPom "2.7.0" with
        Properties := [("maven.compiler.release", "17")] },
      manifests := [("Build-Jdk-Spec", "11")] }).2.2
    { starterPom "2.7.0" with Properties := [("maven.compiler.release", "17")] }
    rfl (by decide) (by decide)).1

/-- C16: `GetSpringBootVersion` follows the order descriptor parent
version, manifest field.  The error is always nil.  If the descriptor is
present with the Spring Boot starter as parent and a parent version `v`
that is not blank, the result is the trimmed `v` whatever the manifest
holds.  In every other case the result is the trimmed
`manifests[SpringBootVersionField]` when that key is present and the empty
string when it is not. -/
theorem GetSpringBootVersion_order (c : Consts) (j : jarFile) :
    (GetSpringBootVersion c j).2 = none ∧
    (∀ v, starterVersion j v → (GetSpringBootVersion c j).1 = TrimSpace v) ∧
    ((¬ ∃ v, starterVersion j v) →
      (∀ value, j.manifests.lookup c.SpringBootVersionField = some value →
        (GetSpringBootVersion c j).1 = TrimSpace value) ∧
      (j.manifests.lookup c.SpringBootVersionField = none →
        (GetSpringBootVersion c j).1 = "")) := by
  refine ⟨GetSpringBootVersion_err c j, ?_, ?_⟩
  · rintro v ⟨p, hp, hg, ha, hv, hne⟩
    have hpom : GetSpringBootVersion.tryPom j = (TrimSpace v, true) := by
      unfold GetSpringBootVersion.tryPom
      rw [hp]
      have hcond : p.Parent.GroupId = SpringBootStarterGroupId ∧
          p.Parent.ArtifactId = SpringBootStarterArtifactId := ⟨hg, ha⟩
      simp only [hcond, and_self, if_true, hv]
      rw [(decide_len_pos (TrimSpace v)).2 hne]
    simp [GetSpringBootVersion, tryFuncs.try, hpom]
  · intro hno
    have hpom : (GetSpringBootVersion.tryPom j).2 = false := by
      unfold GetSpringBootVersion.tryPom
      cases hp : j.mvnProject with
      | none => rfl
      | some p =>
        simp only []
        split
        · rename_i hcond
          by_cases hne : TrimSpace p.Parent.Version ≠ ""
          · exact absurd ⟨p.Parent.Version, p, hp, hcond.1, hcond.2, rfl, hne⟩ hno
          · have he : TrimSpace p.Parent.Version = "" := by simpa using hne
            rw [he]; rfl
        · rfl
    constructor
    · intro value hl
      simp [GetSpringBootVersion, tryFuncs.try, hpom, GetSpringBootVersion.tryManifest, hl]
    · intro hl
      simp [GetSpringBootVersion, tryFuncs.try, hpom, GetSpringBootVersion.tryManifest, hl]

/-- C16 at a snapshot whose descriptor has the starter parent in version
2.7.0 and whose manifest names another version. -/
theorem GetSpringBootVersion_order_witness :
    (GetSpringBootVersion stdConsts { emptyJar "app.jar" with
      mvnProject := some (starterPom "2.7.0"),
      manifests := [("Spring-Boot-Version", "2.6.1")] }).1 = "2.7.0" :=
  (GetSpringBootVersion_order stdConsts { emptyJar "app.jar" with
      mvnProject := some (starterPom "2.7.0"),
      manifests := [("Spring-Boot-Version", "2.6.1")] }).2.1 "2.7.0"
    ⟨starterPom "2.7.0", rfl, rfl, rfl, rfl, by decide⟩

/-- C20: in the descriptor probe of `GetBuildJdkVersion` the first key that
is present decides, even when its value is blank.  For a descriptor whose
`java.version` is empty or white space only, whatever its other properties
are, the probe reports not found; with a manifest without JDK-version
fields `GetBuildJdkVersion` then returns the empty string. -/
theorem GetBuildJdkVersion_blank_first_key (c : Consts) (j : jarFile) (p : MavenProject)
    (v : String) (hp : j.mvnProject = some p)
    (hv : p.Properties.lookup "java.version" = some v) (hb : TrimSpace v = "") :
    GetBuildJdkVersion.tryPom j = ("", false) ∧
    (j.manifests.lookup c.JdkVersionField = none →
      j.manifests.lookup c.JdkVersionFieldFor1x = none →
      GetBuildJdkVersion c j = ("", none)) := by
  have hpom : GetBuildJdkVersion.tryPom j = ("", false) := by
    rw [jdk_tryPom_java_version j p v hp hv, hb]; rfl
  refine ⟨hpom, ?_⟩
  intro h2 h1
  simp [GetBuildJdkVersion, tryFuncs.try, hpom, GetBuildJdkVersion.try2x,
    GetBuildJdkVersion.try1x, h2, h1]

/-- C20 at the properties `java.version` empty and `maven.compiler.target`
11, with an empty manifest: the result is the empty string, not 11. -/
theorem GetBuildJdkVersion_blank_first_key_witness :
    GetBuildJdkVersion stdConsts { emptyJar "app.jar" with
      mvnProject := some { starterPom "2.7.0" with
        Properties := [("java.version", ""), ("maven.compiler.target", "11")] } } =
      ("", none) :=
  (GetBuildJdkVersion_blank_first_key stdConsts { emptyJar "app.jar" with
      mvnProject := some { starterPom "2.7.0" with
        Properties := [("java.version", ""), ("maven.compiler.target", "11")] } }
    { starterPom "2.7.0" with
        Properties := [("java.version", ""), ("maven.compiler.target", "11")] }
    "" rfl (by decide) (by decide)).2 (by decide) (by decide)

/-! ## Properties of `readFileInArchive` -/

/-- C19: the code at an entry that cannot be opened.  `Open` fails with the
error of the zip library for an unsupported compression method;
`readFileInArchive` hands that error back unchanged, so the result carries
no severity, whereas a failure of `ReadAll` on an opened entry is wrapped
into a `DiscoveryError` of severity `Error`. -/
theorem readFileInArchive_open_failure :
    readFileInArchive
      { Name := "BOOT-INF/classes/application.yml",
        Open := .error (GoError.foreign "zip: unsupported compression algorithm") } =
      ("", some (GoError.foreign "zip: unsupported compression algorithm")) ∧
    ((readFileInArchive
      { Name := "BOOT-INF/classes/application.yml",
        Open := .error (GoError.foreign "zip: unsupported compression algorithm") }).2.bind
        GoError.severity?) = none ∧
    ((readFileInArchive
      { Name := "BOOT-INF/classes/application.yml",
        Open := .ok { ReadAll := .error (GoError.foreign "unexpected EOF") } }).2.bind
        GoError.severity?) = some Severity.Error := by
  decide

/-! ## Properties of `parseManifests` -/

/-- What `strings.TrimSpace` returns neither starts nor ends with white
space. -/
theorem isTrimmed_TrimSpace (s : String) : isTrimmed (TrimSpace s) := by
  obtain ⟨l⟩ := s
  unfold isTrimmed TrimSpace trimRight
  simp only []
  constructor
  · intro c hc
    have hpre : ((l.dropWhile isSpace).reverse.dropWhile isSpace).reverse <+:
        l.dropWhile isSpace := by
      have h := List.dropWhile_suffix (l := (l.dropWhile isSpace).reverse) isSpace
      have h2 := List.reverse_prefix.2 h
      rwa [List.reverse_reverse] at h2
    obtain ⟨r, hr⟩ := hpre
    cases ht : ((l.dropWhile isSpace).reverse.dropWhile isSpace).reverse with
    | nil => rw [ht] at hc; simp at hc
    | cons a t =>
      rw [ht] at hc hr
      simp only [List.head?_cons, Option.some.injEq] at hc
      subst hc
      have hhead : (l.dropWhile isSpace).head? = some a := by
        rw [← hr]; rfl
      have := List.head?_dropWhile_not isSpace l
      rw [hhead] at this
      simpa using this
  · intro c hc
    rw [List.getLast?_reverse] at hc
    have := List.head?_dropWhile_not isSpace (l.dropWhile isSpace).reverse
    rw [hc] at this
    simpa using this

theorem isTrimmed_empty : isTrimmed "" := by
  constructor <;> intro c hc <;> simp at hc

theorem isTrimmed_binding (line : String) :
    isTrimmed (parseManifests.binding line).1 ∧ isTrimmed (parseManifests.binding line).2 := by
  unfold parseManifests.binding
  dsimp only
  split
  · exact ⟨isTrimmed_TrimSpace _, isTrimmed_TrimSpace _⟩
  · exact ⟨isTrimmed_TrimSpace _, isTrimmed_empty⟩

theorem lookup_deleteKey_ne (key k : String) (m : List (String × String)) (h : k ≠ key) :
    (deleteKey key m).lookup k = m.lookup k := by
  induction m with
  | nil => rfl
  | cons e m ih =>
    obtain ⟨k2, v2⟩ := e
    unfold deleteKey at ih ⊢
    rw [List.filter_cons]
    by_cases hk : k2 = key
    · have hb : (k2 != key) = false := by simp [hk]
      have hb2 : (k == k2) = false := by
        rw [hk]; simpa using h
      simp only [hb, Bool.false_eq_true, if_false, List.lookup, hb2]
      exact ih
    · have hb : (k2 != key) = true := by simpa using hk
      simp only [hb, if_true, List.lookup]
      split
      · rfl
      · exact ih

theorem lookup_mapSet_self (m : List (String × String)) (key value : String) :
    (mapSet m key value).lookup key = some value := by
  simp [mapSet, List.lookup]

theorem lookup_mapSet_ne (m : List (String × String)) (key value k : String)
    (h : k ≠ key) : (mapSet m key value).lookup k = m.lookup k := by
  have hb : (k == key) = false := by simpa using h
  simp only [mapSet, List.lookup, hb]
  exact lookup_deleteKey_ne key k m h

theorem mem_mapSet (m : List (String × String)) (key value : String) (e : String × String)
    (he : e ∈ mapSet m key value) : e = (key, value) ∨ e ∈ m := by
  unfold mapSet deleteKey at he
  rcases List.mem_cons.1 he with h | h
  · exact Or.inl h
  · exact Or.inr (List.mem_filter.1 h).1

/-- Lines that assign other keys leave the binding of a key untouched. -/
theorem lookup_foldl_step (post : List String) (m : List (String × String)) (k : String)
    (h : ∀ l ∈ post, (parseManifests.binding l).1 ≠ k) :
    (post.foldl parseManifests.step m).lookup k = m.lookup k := by
  induction post generalizing m with
  | nil => rfl
  | cons l post ih =>
    rw [List.foldl_cons, ih _ (fun l hl => h l (List.mem_cons_of_mem _ hl))]
    unfold parseManifests.step
    exact lookup_mapSet_ne m _ _ k (fun hk => h l (List.mem_cons_self _ _) hk.symm)

theorem foldl_step_trimmed (lines : List String) (m : List (String × String))
    (hm : ∀ e ∈ m, isTrimmed e.1 ∧ isTrimmed e.2) :
    ∀ e ∈ lines.foldl parseManifests.step m, isTrimmed e.1 ∧ isTrimmed e.2 := by
  induction lines generalizing m with
  | nil => exact hm
  | cons l lines ih =>
    rw [List.foldl_cons]
    apply ih
    intro e he
    rcases mem_mapSet m _ _ e he with h | h
    · rw [h]; exact isTrimmed_binding l
    · exact hm e h

theorem take_length_takeWhile (p : Char → Bool) (l : List Char) :
    l.take (l.takeWhile p).length = l.takeWhile p := by
  induction l with
  | nil => rfl
  | cons c cs ih =>
    by_cases hc : p c = true
    · simp [List.takeWhile, hc, ih]
    · have hf : p c = false := by simpa using hc
      simp [List.takeWhile, hf]

theorem drop_length_takeWhile (p : Char → Bool) (l : List Char) :
    l.drop (l.takeWhile p).length = l.dropWhile p := by
  induction l with
  | nil => rfl
  | cons c cs ih =>
    by_cases hc : p c = true
    · simp [List.takeWhile, List.dropWhile, hc, ih]
    · have hf : p c = false := by simpa using hc
      simp [List.takeWhile, List.dropWhile, hf]

theorem scanTokens_all_short (ls : List (List Char))
    (h : ∀ l ∈ ls, byteLen l < MaxScanTokenSize) :
    scanTokens ls = ls.map (fun l => (⟨dropCR l⟩ : String)) := by
  induction ls with
  | nil => rfl
  | cons l ls ih =>
    have hl := h l (List.mem_cons_self _ _)
    simp only [scanTokens, hl, if_true, List.map_cons]
    rw [ih (fun l hl => h l (List.mem_cons_of_mem _ hl))]

/-- For a line with a colon that is not its first character, the loop body
binds what the split at the first colon gives. -/
theorem binding_eq_split (line : String) (hc : ':' ∈ line.data)
    (hh : line.data.head? ≠ some ':') :
    parseManifests.binding line = splitAtFirstColon line := by
  obtain ⟨l⟩ := line
  simp only [] at hc hh
  have hlen : 0 < (l.takeWhile (fun c => c != ':')).length := by
    cases l with
    | nil => simp at hc
    | cons a t =>
      have ha : a ≠ ':' := by
        intro h; apply hh; simp [h]
      have hb : (a != ':') = true := by simpa using ha
      rw [List.takeWhile_cons, hb]
      simp
  have hidx : IndexColon ⟨l⟩ = ((l.takeWhile (fun c => c != ':')).length : Int) := by
    simp only [IndexColon, hc, if_true]
  have hpos : IndexColon ⟨l⟩ > 0 := by
    rw [hidx]; exact_mod_cast hlen
  unfold parseManifests.binding splitAtFirstColon
  simp only [hpos, if_true, hc]
  rw [hidx, Int.toNat_ofNat, take_length_takeWhile, ← List.tail_drop, drop_length_takeWhile]

/-- For a line without colon, and for a line that starts with a colon, the
loop body binds the trimmed line to the empty string. -/
theorem binding_whole_line (line : String)
    (h : ':' ∉ line.data ∨ line.data.head? = some ':') :
    parseManifests.binding line = (TrimSpace line, "") := by
  have hidx : ¬ IndexColon line > 0 := by
    rcases h with h | h
    · simp [IndexColon, h]
    · obtain ⟨l⟩ := line
      cases l with
      | nil => simp at h
      | cons a t =>
        simp only [List.head?_cons, Option.some.injEq] at h
        subst h
        simp [IndexColon, List.takeWhile]
  unfold parseManifests.binding
  simp only [hidx, if_false]

/-- C17, refuted as stated: the line `: orphan` contains a colon, and the
split at the first colon gives the empty key with the value `orphan`; the
map returned by `parseManifests` has no empty key and binds the whole
line to the empty string. -/
theorem parseManifests_leading_colon :
    splitAtFirstColon ": orphan" = ("", "orphan") ∧
    (parseManifests ": orphan").lookup "" = none ∧
    (parseManifests ": orphan").lookup ": orphan" = some "" := by
  decide

/-- C17, amended: for every manifest text and every line that the scanner
delivers (these are all lines of the text, each without its trailing
carriage return, when every line is shorter than the scanner's buffer of
65536 bytes), `parseManifests` binds the key of the line to its value
unless a later line rebinds the same key.  For a line with a colon that is
not its first character, key and value are the trimmed texts before and
after the first colon; for a line without colon, or starting with a
colon, the key is the trimmed line and the value is empty.  Every key and
every value of the resulting map is free of leading and trailing white
space. -/
theorem parseManifests_bindings (content : String) :
    (∀ pre line post, ScannerLines content = pre ++ line :: post →
      (∀ l ∈ post, (parseManifests.binding l).1 ≠ (parseManifests.binding line).1) →
      (parseManifests content).lookup (parseManifests.binding line).1 =
        some (parseManifests.binding line).2) ∧
    (∀ line : String, ':' ∈ line.data → line.data.head? ≠ some ':' →
      parseManifests.binding line = splitAtFirstColon line) ∧
    (∀ line : String, (':' ∉ line.data ∨ line.data.head? = some ':') →
      parseManifests.binding line = (TrimSpace line, "")) ∧
    (∀ e ∈ parseManifests content, isTrimmed e.1 ∧ isTrimmed e.2) ∧
    ((∀ l ∈ rawLines content.data [], byteLen l < MaxScanTokenSize) →
      ScannerLines content =
        (rawLines content.data []).map (fun l => (⟨dropCR l⟩ : String))) := by
  refine ⟨?_, binding_eq_split, binding_whole_line, ?_, ?_⟩
  · intro pre line post hlines hpost
    unfold parseManifests
    rw [hlines, List.foldl_append, List.foldl_cons,
      lookup_foldl_step post _ _ hpost]
    exact lookup_mapSet_self _ _ _
  · exact foldl_step_trimmed _ [] (fun e he => absurd he (List.not_mem_nil e))
  · exact scanTokens_all_short _

/-- C17, amended, at a manifest of three lines: the value of `Start-Class`
keeps its second colon. -/
theorem parseManifests_bindings_witness :
    (parseManifests "Manifest-Version: 1.0\r\nStart-Class: com.example:Main\r\nCreated-By\n").lookup
      (parseManifests.binding "Start-Class: com.example:Main").1 =
      some (parseManifests.binding "Start-Class: com.example:Main").2 :=
  (parseManifests_bindings
    "Manifest-Version: 1.0\r\nStart-Class: com.example:Main\r\nCreated-By\n").1
    ["Manifest-Version: 1.0"] "Start-Class: com.example:Main" ["Created-By"]
    (by decide) (by decide)

/-! ## Dependence on the visiting order of maps -/

theorem perm_eq_of_length_le_one {α : Type} (l l' : List α) (h : l.Perm l')
    (hl : l.length ≤ 1) : l' = l := by
  match l, hl, h with
  | [], _, h => exact List.Perm.eq_nil h.symm
  | [a], _, h => exact List.perm_singleton.1 h.symm

theorem filter_eq_of_perm {α : Type} (p : α → Bool) (l l' : List α) (h : l.Perm l')
    (hl : (l.filter p).length ≤ 1) : l'.filter p = l.filter p :=
  perm_eq_of_length_le_one _ _ (h.filter p) hl

theorem name_yaml_filter (x : Lookups) (cfgs : List (String × String)) :
    GetAppName.tryAppYamlLoop x cfgs =
      GetAppName.tryAppYamlLoop x (cfgs.filter (fun e => isYamlFile e.1)) := by
  induction cfgs with
  | nil => rfl
  | cons e cfgs ih =>
    obtain ⟨f, text⟩ := e
    rw [List.filter_cons]
    by_cases hf : isYamlFile f = true
    · simp only [hf, if_true]
      rw [GetAppName.tryAppYamlLoop, GetAppName.tryAppYamlLoop]
      simp only [hf, if_true]
      split
      · rfl
      · exact ih
    · have hff : isYamlFile f = false := by simpa using hf
      simp only [hff, Bool.false_eq_true, if_false]
      rw [GetAppName.tryAppYamlLoop]
      simp only [hff, Bool.false_eq_true, if_false]
      exact ih

theorem name_props_filter (x : Lookups) (cfgs : List (String × String)) :
    GetAppName.tryAppPropsLoop x cfgs =
      GetAppName.tryAppPropsLoop x (cfgs.filter (fun e => isPropertiesFile e.1)) := by
  induction cfgs with
  | nil => rfl
  | cons e cfgs ih =>
    obtain ⟨f, text⟩ := e
    rw [List.filter_cons]
    by_cases hf : isPropertiesFile f = true
    · simp only [hf, if_true]
      rw [GetAppName.tryAppPropsLoop, GetAppName.tryAppPropsLoop]
      simp only [hf, if_true]
      split
      · rfl
      · exact ih
    · have hff : isPropertiesFile f = false := by simpa using hf
      simp only [hff, Bool.false_eq_true, if_false]
      rw [GetAppName.tryAppPropsLoop]
      simp only [hff, Bool.false_eq_true, if_false]
      exact ih

theorem port_yaml_filter (x : Lookups) (cfgs : List (String × String)) :
    GetAppPort.tryAppYamlLoop x cfgs =
      GetAppPort.tryAppYamlLoop x (cfgs.filter (fun e => isYamlFile e.1)) := by
  induction cfgs with
  | nil => rfl
  | cons e cfgs ih =>
    obtain ⟨f, text⟩ := e
    rw [List.filter_cons]
    by_cases hf : isYamlFile f = true
    · simp only [hf, if_true]
      rw [GetAppPort.tryAppYamlLoop, GetAppPort.tryAppYamlLoop]
      simp only [hf, if_true]
      split
      · rfl
      · split
        · rfl
        · exact ih
    · have hff : isYamlFile f = false := by simpa using hf
      simp only [hff, Bool.false_eq_true, if_false]
      rw [GetAppPort.tryAppYamlLoop]
      simp only [hff, Bool.false_eq_true, if_false]
      exact ih

theorem port_props_filter (x : Lookups) (cfgs : List (String × String)) :
    GetAppPort.tryAppPropsLoop x cfgs =
      GetAppPort.tryAppPropsLoop x (cfgs.filter (fun e => isPropertiesFile e.1)) := by
  induction cfgs with
  | nil => rfl
  | cons e cfgs ih =>
    obtain ⟨f, text⟩ := e
    rw [List.filter_cons]
    by_cases hf : isPropertiesFile f = true
    · simp only [hf, if_true]
      rw [GetAppPort.tryAppPropsLoop, GetAppPort.tryAppPropsLoop]
      simp only [hf, if_true]
      split
      · rfl
      · exact ih
    · have hff : isPropertiesFile f = false := by simpa using hf
      simp only [hff, Bool.false_eq_true, if_false]
      rw [GetAppPort.tryAppPropsLoop]
      simp only [hff, Bool.false_eq_true, if_false]
      exact ih

theorem name_options_filter (m : List (String × String)) :
    GetAppName.tryOptionsLoop m = GetAppName.tryOptionsLoop (m.filter isNameOption) := by
  induction m with
  | nil => rfl
  | cons e m ih =>
    obtain ⟨k, v⟩ := e
    rw [List.filter_cons]
    by_cases hk : TrimSpace k = "-D" ++ ApplicationNameKey
    · have hb : isNameOption (k, v) = true := by simp [isNameOption, hk]
      simp only [hb, if_true]
      rw [GetAppName.tryOptionsLoop, GetAppName.tryOptionsLoop]
      simp only [hk, if_true]
    · have hb : isNameOption (k, v) = false := by simp [isNameOption, hk]
      simp only [hb, Bool.false_eq_true, if_false]
      rw [GetAppName.tryOptionsLoop]
      simp only [hk, if_false]
      exact ih

theorem port_options_filter (m : List (String × String)) :
    GetAppPort.tryOptionsLoop m = GetAppPort.tryOptionsLoop (m.filter isPortOption) := by
  induction m with
  | nil => rfl
  | cons e m ih =>
    obtain ⟨k, v⟩ := e
    rw [List.filter_cons]
    by_cases hk : k = "-D" ++ ApplicationPortKey ∨ k = "--" ++ ApplicationPortKey
    · have hb : isPortOption (k, v) = true := by simp only [isPortOption, hk, decide_True]
      simp only [hb, if_true]
      rw [GetAppPort.tryOptionsLoop, GetAppPort.tryOptionsLoop]
      simp only [hk, if_true]
    · have hb : isPortOption (k, v) = false := by simp only [isPortOption, hk, decide_False]
      simp only [hb, Bool.false_eq_true, if_false]
      rw [GetAppPort.tryOptionsLoop]
      simp only [hk, if_false]
      exact ih

/-- C18, refuted as stated: one map of two `.properties` files, visited in
the two possible orders.  The process returns the same (empty) options on
both calls, yet `GetAppName` answers `alpha` for one order and `beta` for
the other, and `GetAppPort` answers 9001 and 9002. -/
theorem accessors_depend_on_visiting_order :
    List.Perm
      [("BOOT-INF/classes/application.properties",
          "spring.application.name=alpha\nserver.port=9001"),
       ("BOOT-INF/classes/config/application.properties",
          "spring.application.name=beta\nserver.port=9002")]
      [("BOOT-INF/classes/config/application.properties",
          "spring.application.name=beta\nserver.port=9002"),
       ("BOOT-INF/classes/application.properties",
          "spring.application.name=alpha\nserver.port=9001")] ∧
    GetAppName demoLookups { emptyJar "app.jar" with
      applicationConfigurations :=
        [("BOOT-INF/classes/application.properties",
            "spring.application.name=alpha\nserver.port=9001"),
         ("BOOT-INF/classes/config/application.properties",
            "spring.application.name=beta\nserver.port=9002")] }
      (processWith []) = ("alpha", none) ∧
    GetAppName demoLookups { emptyJar "app.jar" with
      applicationConfigurations :=
        [("BOOT-INF/classes/config/application.properties",
            "spring.application.name=beta\nserver.port=9002"),
         ("BOOT-INF/classes/application.properties",
            "spring.application.name=alpha\nserver.port=9001")] }
      (processWith []) = ("beta", none) ∧
    GetAppPort demoLookups { emptyJar "app.jar" with
      applicationConfigurations :=
        [("BOOT-INF/classes/application.properties",
            "spring.application.name=alpha\nserver.port=9001"),
         ("BOOT-INF/classes/config/application.properties",
            "spring.application.name=beta\nserver.port=9002")] }
      (processWith []) = (9001, none) ∧
    GetAppPort demoLookups { emptyJar "app.jar" with
      applicationConfigurations :=
        [("BOOT-INF/classes/config/application.properties",
            "spring.application.name=beta\nserver.port=9002"),
         ("BOOT-INF/classes/application.properties",
            "spring.application.name=alpha\nserver.port=9001")] }
      (processWith []) = (9002, none) :=
  ⟨List.Perm.swap _ _ _, by decide, by decide, by decide, by decide⟩

/-- C18, amended: `GetAppType`, `GetArtifactName`, `GetBuildJdkVersion` and
`GetSpringBootVersion` do not iterate over a map, so the visiting order of
the application-config map does not reach them.  `GetAppName` and
`GetAppPort` return the same result for every visiting order of the
application-config map when that map holds at most one YAML file and at
most one `.properties` file, and their option probes return the same
result for every visiting order of a parsed option map that holds at most
one key matched by each probe. -/
theorem accessors_order_independent (x : Lookups) (c : Consts) (j : jarFile)
    (process : JavaProcess) (cfgs : List (String × String))
    (hperm : List.Perm j.applicationConfigurations cfgs)
    (hone : oneFilePerKind j.applicationConfigurations) :
    GetAppName x { j with applicationConfigurations := cfgs } process =
      GetAppName x j process ∧
    GetAppPort x { j with applicationConfigurations := cfgs } process =
      GetAppPort x j process ∧
    (∀ m m' : List (String × String), List.Perm m m' → oneOptionPerProbe m →
      GetAppName.tryOptionsLoop m' = GetAppName.tryOptionsLoop m ∧
      GetAppPort.tryOptionsLoop m' = GetAppPort.tryOptionsLoop m) ∧
    GetAppType c { j with applicationConfigurations := cfgs } = GetAppType c j ∧
    GetArtifactName c { j with applicationConfigurations := cfgs } = GetArtifactName c j ∧
    GetBuildJdkVersion c { j with applicationConfigurations := cfgs } =
      GetBuildJdkVersion c j ∧
    GetSpringBootVersion c { j with applicationConfigurations := cfgs } =
      GetSpringBootVersion c j := by
  have hy := filter_eq_of_perm (fun e => isYamlFile e.1) _ _ hperm hone.1
  have hp := filter_eq_of_perm (fun e => isPropertiesFile e.1) _ _ hperm hone.2
  have h1 : GetAppName.tryAppYaml x { j with applicationConfigurations := cfgs } =
      GetAppName.tryAppYaml x j := by
    unfold GetAppName.tryAppYaml
    rw [name_yaml_filter x cfgs, name_yaml_filter x j.applicationConfigurations, hy]
  have h2 : GetAppName.tryAppProps x { j with applicationConfigurations := cfgs } =
      GetAppName.tryAppProps x j := by
    unfold GetAppName.tryAppProps
    rw [name_props_filter x cfgs, name_props_filter x j.applicationConfigurations, hp]
  have h3 : GetAppPort.tryAppYaml x { j with applicationConfigurations := cfgs } =
      GetAppPort.tryAppYaml x j := by
    unfold GetAppPort.tryAppYaml
    rw [port_yaml_filter x cfgs, port_yaml_filter x j.applicationConfigurations, hy]
  have h4 : GetAppPort.tryAppProps x { j with applicationConfigurations := cfgs } =
      GetAppPort.tryAppProps x j := by
    unfold GetAppPort.tryAppProps
    rw [port_props_filter x cfgs, port_props_filter x j.applicationConfigurations, hp]
  have h5 : GetAppName.tryOptions x process { j with applicationConfigurations := cfgs } =
      GetAppName.tryOptions x process j := rfl
  have h6 : GetAppPort.tryOptions x process { j with applicationConfigurations := cfgs } =
      GetAppPort.tryOptions x process j := rfl
  refine ⟨?_, ?_, ?_, rfl, rfl, rfl, rfl⟩
  · simp only [GetAppName, tryFuncs.try, h1, h2, h5]
  · simp only [GetAppPort, tryFuncs.try, h3, h4, h6, GetAppPort.defaultPort]
  · intro m m' hm hopt
    constructor
    · rw [name_options_filter m', name_options_filter m,
        filter_eq_of_perm isNameOption m m' hm hopt.1]
    · rw [port_options_filter m', port_options_filter m,
        filter_eq_of_perm isPortOption m m' hm hopt.2]

/-- C18, amended, at a map with one YAML file and one `.properties` file,
visited in the other order. -/
theorem accessors_order_independent_witness :
    GetAppPort demoLookups { emptyJar "app.jar" with
      applicationConfigurations :=
        [("BOOT-INF/classes/application.properties", "server.port=9000"),
         ("BOOT-INF/classes/application.yml", "server.port: 9090")] } (processWith []) =
    GetAppPort demoLookups { emptyJar "app.jar" with
      applicationConfigurations :=
        [("BOOT-INF/classes/application.yml", "server.port: 9090"),
         ("BOOT-INF/classes/application.properties", "server.port=9000")] }
      (processWith []) :=
  (accessors_order_independent demoLookups stdConsts { emptyJar "app.jar" with
      applicationConfigurations :=
        [("BOOT-INF/classes/application.yml", "server.port: 9090"),
         ("BOOT-INF/classes/application.properties", "server.port=9000")] }
      (processWith [])
      [("BOOT-INF/classes/application.properties", "server.port=9000"),
       ("BOOT-INF/classes/application.yml", "server.port: 9090")]
      (List.Perm.swap _ _ _) ⟨by decide, by decide⟩).2.1

end JarFile
